import Mathlib

/-!
API testing client: the request pipeline of `src/App.jsx`.

A shallow embedding of the variable resolver (`interpolate`) and of the send
pipeline (`handleSend`) of `src/App.jsx`, with the JavaScript built-ins they
call modelled after ECMA-262.

JavaScript strings are sequences of UTF-16 code units; they are modelled as
lists of natural numbers, one per code unit.
-/

namespace ApiTester

/-! ## JavaScript strings -/

/-- A JavaScript string: the list of its UTF-16 code units. -/
abbrev JSString := List Nat

/-- UTF-16 encoding of one Unicode scalar value. -/
def utf16Char (c : Char) : List Nat :=
  if c.toNat < 65536 then [c.toNat]
  else [55296 + (c.toNat - 65536) / 1024, 56320 + (c.toNat - 65536) % 1024]

/-- The JavaScript string denoted by a string literal. -/
def utf16 (s : String) : JSString := s.toList.flatMap utf16Char

/-- The code unit of `{`. -/
def LBRACE : Nat := 123

/-- The code unit of `}`. -/
def RBRACE : Nat := 125

/-- The code unit of `$`. -/
def DOLLAR : Nat := 36

/-- Two opening braces, the opening delimiter of a placeholder. -/
def openBraces : JSString := [LBRACE, LBRACE]

/-- Two closing braces, the closing delimiter of a placeholder. -/
def closeBraces : JSString := [RBRACE, RBRACE]

/-- ECMA-262 "the substring of S from inclusiveStart to exclusiveEnd". -/
def substring (str : JSString) (start stop : Nat) : JSString :=
  (str.drop start).take (stop - start)

/-- The loop of ECMA-262 `StringIndexOf`: tries the candidates `i`, `i + 1`, ...
(`count` of them) and returns the first index at which `searchValue` occurs. -/
def StringIndexOf.loop (str searchValue : JSString) : Nat → Nat → Option Nat
  | 0, _ => none
  | count + 1, i =>
    if substring str i (i + searchValue.length) = searchValue then some i
    else StringIndexOf.loop str searchValue count (i + 1)

/-- ECMA-262 `StringIndexOf (string, searchValue, fromIndex)`; `none` is the
not-found result (-1). The candidates are the integers `i` with
`fromIndex ≤ i ≤ len - searchLen`, in ascending order. -/
def StringIndexOf (str searchValue : JSString) (fromIndex : Nat) : Option Nat :=
  if searchValue = [] ∧ fromIndex ≤ str.length then some fromIndex
  else StringIndexOf.loop str searchValue
    (str.length + 1 - searchValue.length - fromIndex) fromIndex

/-- `String.prototype.includes (searchString)`, from position 0. -/
def includes (str searchString : JSString) : Bool :=
  (StringIndexOf str searchString 0).isSome

/-- ECMA-262 `GetSubstitution (matched, str, position, captures, namedCaptures,
replacementTemplate)` for a string pattern: there are no captures and no named
captures. The template is read left to right: `$$` stands for `$`, `$&` for
the matched text, a dollar followed by a backquote for the part of `str`
before the match, a dollar followed by a single quote for the part after it.
A `$` followed by digits or by `<` is copied as it is when there are no
captures, like every other code unit. -/
def GetSubstitution (matched str : JSString) (position : Nat) : JSString → JSString
  | [] => []
  | [c] => [c]
  | c :: d :: rest =>
    if c = 36 then
      if d = 36 then 36 :: GetSubstitution matched str position rest
      else if d = 96 then
        substring str 0 position ++ GetSubstitution matched str position rest
      else if d = 38 then matched ++ GetSubstitution matched str position rest
      else if d = 39 then
        str.drop (min (position + matched.length) str.length)
          ++ GetSubstitution matched str position rest
      else c :: GetSubstitution matched str position (d :: rest)
    else c :: GetSubstitution matched str position (d :: rest)

/-- Steps 8 to 11 of `String.prototype.replaceAll`: the list `matchPositions`.
The current search result is the last argument; after a match at `position`
the search resumes at `position + advanceBy`. The first argument bounds the
number of iterations. -/
def replaceAll.positions (str searchString : JSString) (advanceBy : Nat) :
    Nat → Option Nat → List Nat
  | 0, _ => []
  | _ + 1, none => []
  | fuel + 1, some position =>
    position :: replaceAll.positions str searchString advanceBy fuel
      (StringIndexOf str searchString (position + advanceBy))

/-- Steps 12 to 16 of `String.prototype.replaceAll`: for each match position
`p`, append the preserved text since the end of the last match and the
substitution for the match; at the end append the rest of the string. -/
def replaceAll.build (str searchString replaceValue : JSString) :
    List Nat → Nat → JSString → JSString
  | [], endOfLastMatch, result =>
    if endOfLastMatch < str.length then result ++ str.drop endOfLastMatch else result
  | p :: ps, endOfLastMatch, result =>
    replaceAll.build str searchString replaceValue ps (p + searchString.length)
      (result ++ substring str endOfLastMatch p
        ++ GetSubstitution searchString str p replaceValue)

/-- `String.prototype.replaceAll (searchValue, replaceValue)` with both
arguments strings. -/
def replaceAll (str searchString replaceValue : JSString) : JSString :=
  replaceAll.build str searchString replaceValue
    (replaceAll.positions str searchString (max 1 searchString.length)
      (str.length + 2) (StringIndexOf str searchString 0))
    0 []

/-! ## The environment store and the variable resolver -/

/-- A row of the `environment_variables` table (written by `saveEnvironment`). -/
structure EnvironmentVariable where
  environment_id : JSString
  key : JSString
  value : JSString
  enabled : Bool
  deriving DecidableEq

/-- A row returned by `.select("key, value")`. -/
structure Binding where
  key : JSString
  value : JSString
  deriving DecidableEq

/-- The environment store as the client sees it: the rows of
`environment_variables` in stored order, and whether a query answers with data
(a failed query resolves with `data: null`). -/
structure Supabase where
  environment_variables : List EnvironmentVariable
  answers : Bool

/-- The query of `interpolate`:
`from("environment_variables").select("key, value").eq("environment_id", id).eq("enabled", true)`.
The result is the `data` field, `none` for null. -/
def Supabase.selectEnabled (supabase : Supabase) (id : JSString) : Option (List Binding) :=
  if supabase.answers then
    some ((supabase.environment_variables.filter
      (fun v => decide (v.environment_id = id) && decide (v.enabled = true))).map
        (fun v => { key := v.key, value := v.value }))
  else none

/-- The template literal of `interpolate`: two opening braces, the key, two
closing braces. -/
def placeholder (key : JSString) : JSString := openBraces ++ key ++ closeBraces

/-- The `forEach` loop of `interpolate`: one `replaceAll` per binding, in the
order of the rows. -/
def substituteAll (vars : List Binding) (text : JSString) : JSString :=
  vars.foldl (fun result v => replaceAll result (placeholder v.key) v.value) text

/-- JavaScript truthiness of `activeEnvId`, which is null or a string. -/
def envIdTruthy : Option JSString → Bool
  | none => false
  | some id => !id.isEmpty

/-- The resolver `interpolate` of `App.jsx`, lines 335 to 349. The state
variable `activeEnvId` and the store are explicit arguments. -/
def interpolate (supabase : Supabase) (activeEnvId : Option JSString) (text : JSString) :
    JSString :=
  match activeEnvId with
  | none => text
  | some id =>
    if text.isEmpty || id.isEmpty || !includes text (openBraces) then text
    else
      match supabase.selectEnabled id with
      | none => text
      | some vars => substituteAll vars text

/-! ## Reference definitions used to state the claims -/

/-- Replace every occurrence of the literal `pat` in a string by `value`,
scanning from the left; occurrences are taken leftmost first and do not
overlap. The counter is the number of code units of the current occurrence
that remain to be skipped. -/
def replaceEveryLiteral (pat value : JSString) : Nat → JSString → JSString
  | _, [] => []
  | skip + 1, _ :: t => replaceEveryLiteral pat value skip t
  | 0, c :: t =>
    if pat.isPrefixOf (c :: t) && !pat.isEmpty then
      value ++ replaceEveryLiteral pat value (pat.length - 1) t
    else c :: replaceEveryLiteral pat value 0 t

/-- The resolver as the specification words it: the left fold over the
bindings, in stored order, of the step that replaces every occurrence of the
literal placeholder of the key by the value. -/
def resolveReference (vars : List Binding) (text : JSString) : JSString :=
  vars.foldl (fun acc v => replaceEveryLiteral (placeholder v.key) v.value 0 acc) text

/-- Whether a string still contains a placeholder: two opening braces
followed, at any distance, by two closing braces. -/
def hasPlaceholder (s : JSString) : Bool :=
  match StringIndexOf s (openBraces) 0 with
  | none => false
  | some i => includes (s.drop (i + 2)) (closeBraces)

/-- A key without brace characters. -/
def braceFree (key : JSString) : Prop := LBRACE ∉ key ∧ RBRACE ∉ key

instance (key : JSString) : Decidable (braceFree key) := by
  unfold braceFree; infer_instance

/-- A left-to-right scan of a string for a non-empty pattern, where the text
put in place of the occurrence found at position `p` is `f p`. The first
counter is the number of code units of the current occurrence that remain to
be skipped, the second the position in the whole string. -/
def scanWith (f : Nat → JSString) (pat : JSString) : Nat → Nat → JSString → JSString
  | _, _, [] => []
  | skip + 1, p, _ :: t => scanWith f pat skip (p + 1) t
  | 0, p, c :: t =>
    if pat.isPrefixOf (c :: t) then f p ++ scanWith f pat (pat.length - 1) (p + 1) t
    else c :: scanWith f pat 0 (p + 1) t

/-! ## Numbers and `Number::toString` -/

/-- The decimal digits of a natural number, as code units. -/
def natToString (n : Nat) : JSString := (Nat.toDigits 10 n).map Char.toNat

/-- A Number, given by a numeric literal `mantissa × 10^exponent` that denotes
it, as in a JSON text: the Number value is the IEEE 754 binary64 value
nearest to the literal, ties to even; a literal beyond the range denotes an
infinity, one below it zero. Every value that `JSON.parse` yields is denoted
by some literal. -/
structure JSNumber where
  mantissa : Int
  exponent : Int
  deriving DecidableEq

/-- A natural-number literal denotes the Number of that integer. -/
instance (n : Nat) : OfNat JSNumber n := ⟨{ mantissa := n, exponent := 0 }⟩

/-- The magnitude of a binary64 value: `significand × 2^exponent`, or
infinity. The finite values are kept normalized: zero is `finite 0 (-1074)`,
a subnormal value has the exponent -1074 and a significand below `2^52`, and
a normal value has a significand from `2^52` up to `2^53` (excluded). -/
inductive Binary64 where
  | finite (significand : Nat) (exponent : Int)
  | infinite
  deriving DecidableEq

/-- The loop of `bitLength`; the first argument bounds the number of
steps. -/
def bitLength.loop : Nat → Nat → Nat
  | 0, _ => 0
  | fuel + 1, n => if n = 0 then 0 else bitLength.loop fuel (n / 2) + 1

/-- The number of binary digits of a natural number. -/
def bitLength (n : Nat) : Nat := bitLength.loop n n

/-- The quotient `num / den` divided by `2^p`, as a fraction. -/
def scaleBinary (num den : Nat) (p : Int) : Nat × Nat :=
  (num * 2 ^ (-p).toNat, den * 2 ^ p.toNat)

/-- The quotient `num / den` multiplied by `10^t`, as a fraction. -/
def scaleDecimal (num den : Nat) (t : Int) : Nat × Nat :=
  (num * 10 ^ t.toNat, den * 10 ^ (-t).toNat)

/-- The integer nearest to the fraction `num / den`, the even one of two
nearest. -/
def roundHalfEven (num den : Nat) : Nat :=
  let fl := num / den
  let r := num % den
  if den < 2 * r || (2 * r == den && fl % 2 == 1) then fl + 1 else fl

/-- The binary64 magnitude nearest to the fraction `num / den`, ties to even
(IEEE 754 `roundTiesToEven`, which ECMA-262 uses for a numeric literal). -/
def roundBinary64 (num den : Nat) : Binary64 :=
  if num = 0 then .finite 0 (-1074)
  else
    let e0 : Int := (bitLength num : Int) - (bitLength den : Int)
    let at0 := scaleBinary num den e0
    let flog : Int := if at0.2 ≤ at0.1 then e0 else e0 - 1
    let p : Int := max (flog - 52) (-1074)
    let sc := scaleBinary num den p
    let f := roundHalfEven sc.1 sc.2
    let fp : Nat × Int := if f = 2 ^ 53 then (2 ^ 52, p + 1) else (f, p)
    if 971 < fp.2 then .infinite
    else if fp.1 = 0 then .finite 0 (-1074)
    else .finite fp.1 fp.2

/-- The magnitude of the Number value that the literal denotes. -/
def JSNumber.magnitude (x : JSNumber) : Binary64 :=
  let sc := scaleDecimal x.mantissa.natAbs 1 x.exponent
  roundBinary64 sc.1 sc.2

/-- Whether the Number is `+0` or `-0`. -/
def JSNumber.isZero (x : JSNumber) : Bool := x.magnitude == .finite 0 (-1074)

/-- Whether the Number is finite. -/
def JSNumber.isFinite (x : JSNumber) : Bool := x.magnitude != .infinite

/-- Whether the Number is below zero. -/
def JSNumber.isNegative (x : JSNumber) : Bool := decide (x.mantissa < 0) && !x.isZero

/-- The least `j`, from the given one on, with `num × 10^j ≥ den`; the first
argument bounds the number of steps. -/
def leadingZeros.loop (num den : Nat) : Nat → Nat → Nat
  | 0, j => j
  | fuel + 1, j => if den ≤ num * 10 ^ j then j else leadingZeros.loop num den fuel (j + 1)

/-- The integer `n` with `10^(n-1) ≤ num / den < 10^n`, for a positive
fraction. -/
def decimalExponent (num den : Nat) : Int :=
  if den ≤ num then ((natToString (num / den)).length : Int)
  else 1 - (leadingZeros.loop num den (bitLength den + 1) 1 : Int)

/-- The candidates with `k` digits for the digits of `f × 2^q = num / den`,
where `10^(n-1) ≤ num / den < 10^n`: the `k`-digit decimals just below and
just above the value; of those that denote the value, the nearer one (the
even one of two equally near). The result is the integer `s` of the digits
and the position `n` of the decimal point, for the decimal
`s × 10^(n-k)`. -/
def digitsOfLength (f : Nat) (q : Int) (num den : Nat) (n : Int) (k : Nat) :
    Option (Nat × Int) :=
  let sc := scaleDecimal num den ((k : Int) - n)
  let lo := sc.1 / sc.2
  let r := sc.1 % sc.2
  let hi := lo + 1
  let okLo := JSNumber.magnitude { mantissa := lo, exponent := n - k } == .finite f q
  let okHi := JSNumber.magnitude { mantissa := hi, exponent := n - k } == .finite f q
  let up : Nat × Int := if hi = 10 ^ k then (10 ^ (k - 1), n + 1) else (hi, n)
  if okLo && okHi then
    if 2 * r < sc.2 || (2 * r == sc.2 && lo % 2 == 0) then some (lo, n) else some up
  else if okLo then some (lo, n)
  else if okHi then some up
  else none

/-- The search for the least number of digits, from `k` on; the first
argument bounds the number of steps. -/
def shortestDigits.loop (f : Nat) (q : Int) (num den : Nat) (n : Int) :
    Nat → Nat → Nat × Int
  | 0, k =>
    ((scaleDecimal num den ((k : Int) - n)).1 / (scaleDecimal num den ((k : Int) - n)).2, n)
  | fuel + 1, k =>
    match digitsOfLength f q num den n k with
    | some r => r
    | none => shortestDigits.loop f q num den n fuel (k + 1)

/-- ECMA-262 `Number::toString`, step 5, for the positive finite value
`f × 2^q`: the integers `s` and `n` such that `s` has the least number `k` of
digits for which `s × 10^(n-k)` denotes the value. -/
def shortestDigits (f : Nat) (q : Int) : Nat × Int :=
  let sc := scaleBinary f 1 (-q)
  shortestDigits.loop f q sc.1 sc.2 (decimalExponent sc.1 sc.2) 17 1

/-- ECMA-262 `Number::toString` for radix 10, steps 6 to 11: the text for
the digits of `s` and the position `n`. -/
def formatDecimal (digits : JSString) (n : Int) : JSString :=
  let k : Int := digits.length
  if -5 ≤ n ∧ n ≤ 21 then
    if k ≤ n then digits ++ List.replicate (n - k).toNat 48
    else if 0 < n then digits.take n.toNat ++ 46 :: digits.drop n.toNat
    else 48 :: 46 :: (List.replicate (-n).toNat 48 ++ digits)
  else
    let exponentSign : Nat := if n < 0 then 45 else 43
    let tail := 101 :: exponentSign :: natToString (n - 1).natAbs
    match digits with
    | [] => tail
    | [d] => d :: tail
    | d :: rest => d :: 46 :: (rest ++ tail)

/-- ECMA-262 `Number::toString` on a magnitude. -/
def Binary64.toString : Binary64 → JSString
  | .infinite => utf16 "Infinity"
  | .finite f q =>
    if f = 0 then utf16 "0"
    else formatDecimal (natToString (shortestDigits f q).1) (shortestDigits f q).2

/-- ECMA-262 `Number::toString` with radix 10. -/
def numberToString (x : JSNumber) : JSString :=
  if x.isNegative then 45 :: x.magnitude.toString else x.magnitude.toString

/-! ## JavaScript values and `JSON.stringify` -/

/-- A JavaScript value as it comes out of `JSON.parse` or of a property
lookup: `undefined`, or a JSON value. The fields of an object are listed in
the enumeration order of its properties. -/
inductive JSValue where
  | undefined
  | null
  | bool (b : Bool)
  | number (x : JSNumber)
  | string (s : JSString)
  | array (items : List JSValue)
  | object (fields : List (JSString × JSValue))

/-- JavaScript truthiness (`ToBoolean`). -/
def JSValue.truthy : JSValue → Bool
  | .undefined => false
  | .null => false
  | .bool b => b
  | .number x => !x.isZero
  | .string s => !s.isEmpty
  | .array _ => true
  | .object _ => true

/-- A lower-case hexadecimal digit. -/
def hexDigit (n : Nat) : Nat := if n < 10 then 48 + n else 87 + n

/-- ECMA-262 `UnicodeEscape`: backslash, `u`, four hexadecimal digits. -/
def unicodeEscape (c : Nat) : JSString :=
  [92, 117, hexDigit (c / 4096 % 16), hexDigit (c / 256 % 16), hexDigit (c / 16 % 16),
    hexDigit (c % 16)]

/-- The escape of one code unit that is not part of a surrogate pair, in
`QuoteJSONString`. -/
def quoteUnit (c : Nat) : JSString :=
  if c = 8 then [92, 98]
  else if c = 9 then [92, 116]
  else if c = 10 then [92, 110]
  else if c = 12 then [92, 102]
  else if c = 13 then [92, 114]
  else if c = 34 then [92, 34]
  else if c = 92 then [92, 92]
  else if c < 32 || (55296 ≤ c && c < 57344) then unicodeEscape c
  else [c]

/-- The body of ECMA-262 `QuoteJSONString`: a surrogate pair is copied, a lone
surrogate and a control character are escaped. -/
def quoteUnits : JSString → JSString
  | [] => []
  | [c] => quoteUnit c
  | c :: d :: rest =>
    if (55296 ≤ c && c < 56320) && (56320 ≤ d && d < 57344) then c :: d :: quoteUnits rest
    else quoteUnit c ++ quoteUnits (d :: rest)

/-- ECMA-262 `QuoteJSONString`. -/
def quoteJSONString (s : JSString) : JSString := 34 :: quoteUnits s ++ [34]

/-- Join the parts with a separator. -/
def joinWith (sep : JSString) : List JSString → JSString
  | [] => []
  | [x] => x
  | x :: y :: rest => x ++ sep ++ joinWith sep (y :: rest)

/-- The final steps of `SerializeJSONObject` and `SerializeJSONArray`: the
empty form, the compact form when `gap` is empty, the indented form
otherwise. `stepback` is the indentation of the enclosing level. -/
def wrapParts (opening closing : Nat) (gap stepback : JSString) (parts : List JSString) :
    JSString :=
  if parts.isEmpty then [opening, closing]
  else if gap.isEmpty then opening :: joinWith [44] parts ++ [closing]
  else
    opening :: 10 :: (stepback ++ gap) ++ joinWith (44 :: 10 :: (stepback ++ gap)) parts
      ++ 10 :: stepback ++ [closing]

mutual
/-- ECMA-262 `SerializeJSONProperty` on a value without `toJSON`; `none` is
the result `undefined`. `indent` is the current indentation. -/
def JSON.serializeProperty (gap indent : JSString) : JSValue → Option JSString
  | .undefined => none
  | .null => some (utf16 "null")
  | .bool b => some (if b then utf16 "true" else utf16 "false")
  | .number x => some (if x.isFinite then numberToString x else utf16 "null")
  | .string s => some (quoteJSONString s)
  | .array items =>
    some (wrapParts 91 93 gap indent (JSON.serializeElements gap (indent ++ gap) items))
  | .object fields =>
    some (wrapParts 123 125 gap indent (JSON.serializeFields gap (indent ++ gap) fields))
/-- The elements of an array: an `undefined` element is written `null`. -/
def JSON.serializeElements (gap indent : JSString) : List JSValue → List JSString
  | [] => []
  | v :: vs =>
    (JSON.serializeProperty gap indent v).getD (utf16 "null")
      :: JSON.serializeElements gap indent vs
/-- The members of an object: a member whose value is `undefined` is left
out. -/
def JSON.serializeFields (gap indent : JSString) : List (JSString × JSValue) → List JSString
  | [] => []
  | (k, v) :: fs =>
    match JSON.serializeProperty gap indent v with
    | none => JSON.serializeFields gap indent fs
    | some str =>
      (quoteJSONString k ++ 58 :: (if gap.isEmpty then [] else [32]) ++ str)
        :: JSON.serializeFields gap indent fs
end

/-- `JSON.stringify (value)`; `none` is the result `undefined`. -/
def JSON.stringify (value : JSValue) : Option JSString :=
  JSON.serializeProperty [] [] value

/-- `JSON.stringify (value, null, 2)`. -/
def JSON.stringifyIndented (value : JSValue) : Option JSString :=
  JSON.serializeProperty [32, 32] [] value

/-- `String (value)` on a primitive value. -/
def JSValue.toStringPrimitive : JSValue → JSString
  | .undefined => utf16 "undefined"
  | .null => utf16 "null"
  | .bool b => if b then utf16 "true" else utf16 "false"
  | .number x => numberToString x
  | .string s => s
  | .array _ => []
  | .object _ => utf16 "[object Object]"

/-! ## The send pipeline: state, collaborators, errors -/

/-- ECMA-262 `WhiteSpace` and `LineTerminator` code units, which
`String.prototype.trim` removes. -/
def isWhiteSpace (c : Nat) : Bool :=
  c = 9 || c = 10 || c = 11 || c = 12 || c = 13 || c = 32 || c = 160 || c = 5760
    || (8192 ≤ c && c ≤ 8202) || c = 8232 || c = 8233 || c = 8239 || c = 8287
    || c = 12288 || c = 65279

/-- `String.prototype.trim`. -/
def trim (s : JSString) : JSString :=
  ((s.dropWhile isWhiteSpace).reverse.dropWhile isWhiteSpace).reverse

/-- A row of the headers editor. -/
structure HeaderRow where
  key : JSString
  value : JSString
  deriving DecidableEq

/-- The signed-in user; `handleSend` reads its `id` only. -/
structure User where
  id : JSString
  deriving DecidableEq

/-- The `status` field of an error object of `App.jsx`: a label, or the HTTP
status number of the reply. -/
inductive ErrorStatus where
  | label (text : JSString)
  | code (status : Nat)
  deriving DecidableEq

/-- The object given to `setError`. -/
structure ErrorReport where
  title : JSString
  message : JSString
  status : ErrorStatus
  deriving DecidableEq

/-- The object given to `setResponse`. -/
structure Response where
  status : JSValue
  data : JSValue
  time : JSValue
  size : JSValue

/-- The body of the POST to `/api/proxy`. The header object is the list of
its properties in insertion order; `user_id` is `none` when `user?.id` is
undefined. -/
structure ProxyRequest where
  url : JSString
  method : JSString
  headers : List (JSString × JSString)
  body : JSValue
  user_id : Option JSString

/-- A thrown error: its `message`, and its `code` when it has one (errors of
the transport have). -/
structure JSError where
  message : JSString
  code : Option JSString
  deriving DecidableEq

/-- The outcome of `axios.post` with `validateStatus: () => true`: a reply of
any status (`res.status`, `res.data`), or a rejection. -/
inductive AxiosOutcome where
  | resolved (status : Nat) (data : JSValue)
  | rejected (err : JSError)

/-- What `handleSend` reaches outside of the component: `navigator.onLine`,
the environment store, the URL constructor (`urlParses s` says that
`new URL(s)` returns), `JSON.parse` (`none` when it throws) and the proxy
behind `axios.post`. One call of `handleSend` reads the store as one
snapshot. -/
structure World where
  onLine : Bool
  supabase : Supabase
  urlParses : JSString → Bool
  jsonParse : JSString → Option JSValue
  post : ProxyRequest → AxiosOutcome

/-- The state variables of `App` that `handleSend` reads or sets. -/
structure AppState where
  url : JSString
  method : JSString
  headers : List HeaderRow
  body : JSString
  response : Option Response
  loading : Bool
  error : Option ErrorReport
  activeEnvId : Option JSString
  user : Option User

/-- The calls that `handleSend` issues: the POST to the proxy, and
`fetchHistory`. -/
inductive Effect where
  | proxyPost (req : ProxyRequest)
  | fetchHistory

/-- The table `STATUS_TEXT`, lines 53 to 69. -/
def STATUS_TEXT (status : Nat) : Option JSString :=
  [ (200, utf16 "OK"), (201, utf16 "Created"), (204, utf16 "No Content"),
    (301, utf16 "Moved Permanently"), (302, utf16 "Found"), (400, utf16 "Bad Request"),
    (401, utf16 "Unauthorized"), (403, utf16 "Forbidden"), (404, utf16 "Not Found"),
    (405, utf16 "Method Not Allowed"), (429, utf16 "Too Many Requests"),
    (500, utf16 "Internal Server Error"), (502, utf16 "Bad Gateway"),
    (503, utf16 "Service Unavailable"), (504, utf16 "Gateway Timeout") ].lookup status

/-- The `TypeError` of a property read on `null` or `undefined`. -/
def propertyTypeError (base name : JSString) : JSError :=
  { message := utf16 "Cannot read properties of " ++ base ++ utf16 " (reading " ++ [39]
      ++ name ++ [39, 41],
    code := none }

/-- The property read `value.name` for the names `handleSend` reads
(`details`, `data`, `status`, `time`, `size`): it throws on `null` and
`undefined`, finds nothing on the other primitives and on arrays. -/
def JSValue.getField (value : JSValue) (name : JSString) : Except JSError JSValue :=
  match value with
  | .undefined => .error (propertyTypeError (utf16 "undefined") name)
  | .null => .error (propertyTypeError (utf16 "null") name)
  | .object fields => .ok ((fields.lookup name).getD .undefined)
  | _ => .ok .undefined

/-- The number that a text of decimal digits denotes. -/
def decimalValue (key : JSString) : Nat := key.foldl (fun acc c => 10 * acc + (c - 48)) 0

/-- The array index that a property key is, if it is one (ECMA-262, "array
index"): the key is the canonical decimal text of an integer below
`2^32 - 1`. -/
def arrayIndex (key : JSString) : Option Nat :=
  if key = natToString (decimalValue key) ∧ decimalValue key < 2 ^ 32 - 1 then
    some (decimalValue key)
  else none

/-- Whether the property `p` is enumerated before a new property of array
index `i`: its key is a smaller array index. -/
def enumeratedBefore (i : Nat) (p : JSString × JSString) : Bool :=
  match arrayIndex p.1 with
  | some j => decide (j < i)
  | none => false

/-- A new property in the enumeration order of a plain object (ECMA-262
`OrdinaryOwnPropertyKeys`): the array indices come first, in ascending order,
then the other keys in the order of their creation. -/
def insertProperty (obj : List (JSString × JSString)) (key value : JSString) :
    List (JSString × JSString) :=
  match arrayIndex key with
  | some i =>
    obj.takeWhile (enumeratedBefore i) ++ (key, value) :: obj.dropWhile (enumeratedBefore i)
  | none => obj ++ [(key, value)]

/-- The assignment `finalHeaders[key] = value` on a plain object: an existing
property keeps its place, a new one takes its place in the enumeration order,
and the key `__proto__` reaches the inherited setter, which ignores a
string. -/
def setProperty (obj : List (JSString × JSString)) (key value : JSString) :
    List (JSString × JSString) :=
  if key = utf16 "__proto__" then obj
  else if obj.any (fun p => decide (p.1 = key)) then
    obj.map (fun p => if p.1 = key then (key, value) else p)
  else insertProperty obj key value

/-! ## `handleSend` -/

/-- The loop over the header rows, lines 384 to 388: a row with an empty key
is skipped, the key and the value of the others are resolved. -/
def finalHeaders (w : World) (st : AppState) : List (JSString × JSString) :=
  st.headers.foldl
    (fun acc h =>
      if h.key.isEmpty then acc
      else setProperty acc (interpolate w.supabase st.activeEnvId h.key)
        (interpolate w.supabase st.activeEnvId h.value))
    []

/-- Lines 376 to 398 and the argument of `axios.post`: the resolved URL is
checked with `new URL`, the headers are collected, a non-blank body is
resolved and parsed. The errors are those the code throws. -/
def composeRequest (w : World) (st : AppState) : Except JSError ProxyRequest :=
  let finalUrl := interpolate w.supabase st.activeEnvId st.url
  if !w.urlParses finalUrl then .error { message := utf16 "Malformed URL", code := none }
  else if (trim st.body).isEmpty then
    .ok { url := finalUrl, method := st.method, headers := finalHeaders w st,
          body := .object [], user_id := st.user.map (fun u => u.id) }
  else
    match w.jsonParse (interpolate w.supabase st.activeEnvId st.body) with
    | none => .error { message := utf16 "Invalid JSON Body", code := none }
    | some finalBody =>
      .ok { url := finalUrl, method := st.method, headers := finalHeaders w st,
            body := finalBody, user_id := st.user.map (fun u => u.id) }

/-- The test of lines 416 to 418 on the data of a reply:
`res.data?.details && JSON.stringify(res.data.details).includes("ENOTFOUND")`. -/
def dnsMarker (data : JSValue) : Bool :=
  let details :=
    match data with
    | .object fields => (fields.lookup (utf16 "details")).getD .undefined
    | _ => .undefined
  details.truthy &&
    match JSON.stringify details with
    | some str => includes str (utf16 "ENOTFOUND")
    | none => false

/-- The expression `messageToShow`, lines 432 to 439. -/
def messageToShow (resData : JSValue) : JSString :=
  if resData.truthy && decide (JSON.stringify resData ≠ some [34, 34])
      && decide (JSON.stringify resData ≠ some [LBRACE, RBRACE]) then
    match resData with
    | .array _ => (JSON.stringifyIndented resData).getD []
    | .object _ => (JSON.stringifyIndented resData).getD []
    | _ => resData.toStringPrimitive
  else utf16 "The server returned an empty response."

/-- Lines 415 to 455, on the reply `res`: the DNS report, the HTTP error
report or the response, and the call of `fetchHistory` for a signed-in user.
A property read on a null `res.data` throws. -/
def processReply (st : AppState) (status : Nat) (data : JSValue) :
    Except JSError (AppState × List Effect) :=
  if status = 500 && dnsMarker data then
    .ok ({ st with
            error := some {
              title := utf16 "Address Not Found",
              message :=
                utf16 "Could not resolve the domain name. Please check the URL spelling.",
              status := .label (utf16 "DNS Error") },
            loading := false }, [])
  else
    let history : List Effect := if st.user.isSome then [Effect.fetchHistory] else []
    if 400 ≤ status then
      match data.getField (utf16 "data") with
      | .error err => .error err
      | .ok resData =>
        .ok ({ st with
                error := some {
                  title := utf16 "Error " ++ natToString status ++ utf16 ": "
                    ++ (STATUS_TEXT status).getD (utf16 "Error"),
                  message := messageToShow resData,
                  status := .code status } }, history)
    else
      match data.getField (utf16 "status"), data.getField (utf16 "data"),
        data.getField (utf16 "time"), data.getField (utf16 "size") with
      | .ok s, .ok d, .ok t, .ok z =>
        .ok ({ st with response := some { status := s, data := d, time := t, size := z } },
          history)
      | .error err, _, _, _ => .error err
      | _, .error err, _, _ => .error err
      | _, _, .error err, _ => .error err
      | _, _, _, .error err => .error err

/-- The `catch` block, lines 456 to 494: the error object for a thrown
error. -/
def errorPayload (err : JSError) : ErrorReport :=
  if err.message = utf16 "Malformed URL" then
    { title := utf16 "Invalid URL Format",
      message := utf16 "The URL format is incorrect. Check for typos or missing http/https.",
      status := .label (utf16 "Client Error") }
  else if err.message = utf16 "Invalid JSON Body" then
    { title := utf16 "Invalid JSON",
      message := utf16 "The request body contains invalid JSON. Please check your syntax.",
      status := .label (utf16 "Client Error") }
  else if err.code = some (utf16 "ERR_NETWORK") then
    { title := utf16 "Network Error",
      message := utf16
        "Could not reach the backend server. Ensure the backend is running on port 5000.",
      status := .label (utf16 "Connection Failed") }
  else if err.code = some (utf16 "ECONNABORTED") then
    { title := utf16 "Request Timed Out",
      message := utf16 "The server took too long to respond (>15s).",
      status := .label (utf16 "Timeout") }
  else
    { title := utf16 "Request Failed",
      message := utf16 "An unknown error occurred.",
      status := .label (utf16 "Error") }

/-- The function `handleSend`, lines 352 to 498: the state after the call
and the calls it issued, in order. -/
def handleSend (w : World) (st : AppState) : AppState × List Effect :=
  if (trim st.url).isEmpty then
    ({ st with
        error := some {
          title := utf16 "Invalid URL",
          message := utf16 "Please enter a valid URL to send a request.",
          status := .label (utf16 "Client Error") } }, [])
  else if !w.onLine then
    ({ st with
        error := some {
          title := utf16 "No Internet Connection",
          message := utf16 "You are offline. Please check your network settings.",
          status := .label (utf16 "Offline") } }, [])
  else
    let st1 := { st with loading := true, error := none, response := none }
    match composeRequest w st with
    | .error err => ({ st1 with error := some (errorPayload err), loading := false }, [])
    | .ok req =>
      match w.post req with
      | .rejected err =>
        ({ st1 with error := some (errorPayload err), loading := false },
          [Effect.proxyPost req])
      | .resolved status data =>
        match processReply st1 status data with
        | .error err =>
          ({ st1 with error := some (errorPayload err), loading := false },
            [Effect.proxyPost req])
        | .ok (st2, effects) => ({ st2 with loading := false }, Effect.proxyPost req :: effects)

/-- The requests that a run handed to the proxy, in order. -/
def proxyRequests : List Effect → List ProxyRequest
  | [] => []
  | Effect.proxyPost req :: rest => req :: proxyRequests rest
  | Effect.fetchHistory :: rest => proxyRequests rest

/-! ## Example data -/

/-- An example store: environment `env1` binds `path` (enabled) and `token`
(disabled), environment `env2` binds `path`. -/
def demoStore : Supabase :=
  { environment_variables :=
      [ { environment_id := utf16 "env1", key := utf16 "path", value := utf16 "v1/users",
          enabled := true },
        { environment_id := utf16 "env1", key := utf16 "token", value := utf16 "secret",
          enabled := false },
        { environment_id := utf16 "env2", key := utf16 "path", value := utf16 "v2/users",
          enabled := true } ],
    answers := true }

/-- A store with one environment `env1` that holds the given bindings, all
enabled, in the given order. -/
def storeOf (bindings : List Binding) : Supabase :=
  { environment_variables :=
      bindings.map (fun b =>
        { environment_id := utf16 "env1", key := b.key, value := b.value, enabled := true }),
    answers := true }

/-- The example URL of the specification: `https://api.example.com/` followed
by the placeholder of `path`. -/
def demoUrl : JSString := utf16 "https://api.example.com/" ++ placeholder (utf16 "path")

/-- A stand-in for the URL constructor in examples: it accepts the strings
that start with `http://` or `https://`. -/
def demoUrlParses (s : JSString) : Bool :=
  (utf16 "http://").isPrefixOf s || (utf16 "https://").isPrefixOf s

/-- An example world: the example store, the stand-in URL check, a JSON
parser that rejects every text, and a proxy that answers every request with
status 200 and an empty envelope. -/
def demoWorld (onLine : Bool) : World :=
  { onLine := onLine,
    supabase := demoStore,
    urlParses := demoUrlParses,
    jsonParse := fun _ => none,
    post := fun _ => AxiosOutcome.resolved 200 (JSValue.object []) }

/-- An example state: the draft with the given URL, method GET, the initial
header row, a blank body, environment `env1` active, no user. -/
def demoState (url : JSString) : AppState :=
  { url := url, method := utf16 "GET", headers := [{ key := [], value := [] }], body := [],
    response := none, loading := false, error := none,
    activeEnvId := some (utf16 "env1"), user := none }

/-- The reply that `handleSend` receives from the proxy, if any: both guards
pass, the request composes, and `axios.post` resolves with `res.status` and
`res.data`. -/
def proxyReply (w : World) (st : AppState) : Option (Nat × JSValue) :=
  if (trim st.url).isEmpty || !w.onLine then none
  else
    match composeRequest w st with
    | .error _ => none
    | .ok req =>
      match w.post req with
      | .resolved status data => some (status, data)
      | .rejected _ => none

/-- The example world, online, with a proxy that answers every request with
the given status and data. -/
def replyWorld (status : Nat) (data : JSValue) : World :=
  { demoWorld true with post := fun _ => AxiosOutcome.resolved status data }

/-- The example state with the given header rows. -/
def headerState (rows : List HeaderRow) : AppState :=
  { demoState demoUrl with headers := rows }

/-- Example header rows: `Accept`, a row left empty, and `X-Path` whose value
is the placeholder of `path`. -/
def demoHeaderRows : List HeaderRow :=
  [ { key := utf16 "Accept", value := utf16 "*/*" },
    { key := [], value := utf16 "dropped" },
    { key := utf16 "X-Path", value := placeholder (utf16 "path") } ]

/-- The resolved key and value of the header rows with a non-empty raw key,
in the order of the rows. -/
def resolvedRows (w : World) (st : AppState) : List (JSString × JSString) :=
  (st.headers.filter (fun h => !h.key.isEmpty)).map
    (fun h => (interpolate w.supabase st.activeEnvId h.key,
      interpolate w.supabase st.activeEnvId h.value))

/-- An example envelope of the proxy: status 200, data `hi`, time `12ms`,
size `2B`. -/
def demoEnvelope : JSValue :=
  .object [ (utf16 "status", .number 200), (utf16 "data", .string (utf16 "hi")),
    (utf16 "time", .string (utf16 "12ms")), (utf16 "size", .string (utf16 "2B")) ]

/-- An example error envelope: the data is the object with the single member
`msg` of value `no`. -/
def demoErrorEnvelope : JSValue :=
  .object [ (utf16 "data", .object [ (utf16 "msg", .string (utf16 "no")) ]) ]

/-- The reason phrase in the status badge next to a Response, lines 989 to
991: `STATUS_TEXT[response.status] || "OK"`, for a `response.status` that is a
status code. -/
def statusBadgePhrase (status : Nat) : JSString := (STATUS_TEXT status).getD (utf16 "OK")

/-- The codes that the specification lists for the table of reason
phrases. -/
def tableCodes : List Nat :=
  [200, 201, 204, 301, 302, 400, 401, 403, 404, 405, 429, 500, 502, 503, 504]

/-- The marker of a DNS failure as the specification words it: the data of
the reply is an envelope with a `details` field whose serialized form
contains `ENOTFOUND`. -/
def hasDnsDetails (data : JSValue) : Prop :=
  ∃ fields details str, data = JSValue.object fields
    ∧ fields.lookup (utf16 "details") = some details
    ∧ JSON.stringify details = some str ∧ utf16 "ENOTFOUND" <:+: str

/-- The error object of the DNS case, lines 420 to 425. -/
def dnsReport : ErrorReport :=
  { title := utf16 "Address Not Found",
    message := utf16 "Could not resolve the domain name. Please check the URL spelling.",
    status := .label (utf16 "DNS Error") }

/-- An example reply data of the proxy for a target whose name does not
resolve. -/
def demoDnsData : JSValue :=
  .object [ (utf16 "error", .string (utf16 "Proxy error")),
    (utf16 "details", .string (utf16 "getaddrinfo ENOTFOUND nosuchhost.example")) ]

/-- The rejection of `axios.post` that `handleSend` receives, if any: both
guards pass, the request composes, and the transport fails with this
error. -/
def transportFailure (w : World) (st : AppState) : Option JSError :=
  if (trim st.url).isEmpty || !w.onLine then none
  else
    match composeRequest w st with
    | .error _ => none
    | .ok req =>
      match w.post req with
      | .resolved _ _ => none
      | .rejected err => some err

/-- The error that the `catch` block of `handleSend` receives, if any: the
error thrown by the composition, the rejection of `axios.post`, or the error
thrown while the reply is read. -/
def caughtError (w : World) (st : AppState) : Option JSError :=
  if (trim st.url).isEmpty || !w.onLine then none
  else
    match composeRequest w st with
    | .error err => some err
    | .ok req =>
      match w.post req with
      | .rejected err => some err
      | .resolved status data =>
        match processReply { st with loading := true, error := none, response := none }
            status data with
        | .error err => some err
        | .ok _ => none

/-- The example world, online, with a proxy call that fails with the given
error. -/
def failWorld (err : JSError) : World :=
  { demoWorld true with post := fun _ => AxiosOutcome.rejected err }

/-- The error of the transport when the deadline of 15000 ms passes. -/
def timeoutError : JSError :=
  { message := utf16 "timeout of 15000ms exceeded", code := some (utf16 "ECONNABORTED") }

/-- The error of the transport when the proxy cannot be reached. -/
def networkError : JSError :=
  { message := utf16 "Network Error", code := some (utf16 "ERR_NETWORK") }

/-- Whether an effect is the call of `fetchHistory`. -/
def Effect.isFetchHistory : Effect → Bool
  | .fetchHistory => true
  | .proxyPost _ => false

/-- The example state with a signed-in user. -/
def signedInState : AppState :=
  { demoState demoUrl with user := some { id := utf16 "u1" } }

/-- A Response left by an earlier send. -/
def staleResponse : Response :=
  { status := .number 200, data := .string (utf16 "hi"), time := .string (utf16 "12ms"),
    size := .string (utf16 "2B") }

/-- A state that holds the Response of an earlier send, the URL field now
blank. -/
def staleState : AppState :=
  { demoState [] with response := some staleResponse }

/-- An envelope whose `status` field is 404. -/
def notFoundEnvelope : JSValue :=
  .object [ (utf16 "status", .number 404), (utf16 "data", .string (utf16 "missing")),
    (utf16 "time", .string (utf16 "12ms")), (utf16 "size", .string (utf16 "7B")) ]

/-! ## Environments: the editor, the calls on the store, the session -/

/-- A row of the table `environments`, as far as `App.jsx` reads it. -/
structure Environment where
  id : JSString
  name : JSString
  deriving DecidableEq

/-- A variable row of the environment editor. The field `enabled` can be
absent. -/
structure EditorVariable where
  key : JSString
  value : JSString
  enabled : Option Bool
  deriving DecidableEq

/-- The state variable `envEditor`, lines 142 to 146; `id` is null for a new
environment, and `variableRows` is the field `variables`. -/
structure EnvEditor where
  id : Option JSString
  name : JSString
  variableRows : List EditorVariable
  deriving DecidableEq

/-- The calls that `saveEnvironment`, `deleteEnvironment` and
`fetchEnvironments` issue on the store. -/
inductive StoreCall where
  | updateEnvironment (id name : JSString)
  | insertEnvironment (user_id name : JSString)
  | deleteVariables (environment_id : JSString)
  | insertVariables (rows : List EnvironmentVariable)
  | deleteEnvironment (id : JSString)
  | selectEnvironments
  deriving DecidableEq

/-- What the store answers: `inserted` is `data.id` of the inserted
environment (`none` when `data` is null), `environments` is the `data` of the
select of `fetchEnvironments` (`none` when it is null). -/
structure StoreReplies where
  inserted : Option JSString
  environments : Option (List Environment)

/-- The state variables of `App` that the environment and auth handlers read
and write. -/
structure SessionState where
  user : Option User
  isPasswordRecovery : Bool
  collections : List JSValue
  historyItems : List JSValue
  environments : List Environment
  activeEnvId : Option JSString
  envEditor : EnvEditor
  isEnvModalOpen : Bool

/-- The events of `onAuthStateChange` that the handler tells apart; `other`
is any other event. -/
inductive AuthEvent where
  | PASSWORD_RECOVERY
  | SIGNED_OUT
  | SIGNED_IN
  | TOKEN_REFRESHED
  | other

/-- The handler passed to `onAuthStateChange`, lines 177 to 188;
`sessionUser` is `session?.user ?? null`. -/
def authStateChange (event : AuthEvent) (sessionUser : Option User) (st : SessionState) :
    SessionState :=
  match event with
  | .PASSWORD_RECOVERY => { st with isPasswordRecovery := true }
  | .SIGNED_OUT =>
    { st with
        user := none, isPasswordRecovery := false, collections := [], historyItems := [],
        environments := [] }
  | .SIGNED_IN => { st with user := sessionUser }
  | .TOKEN_REFRESHED => { st with user := sessionUser }
  | .other => st

/-- The function `fetchEnvironments`, lines 260 to 267. -/
def fetchEnvironments (r : StoreReplies) (st : SessionState) : SessionState × List StoreCall :=
  (match r.environments with
    | some data => { st with environments := data }
    | none => st,
   [StoreCall.selectEnvironments])

/-- The rows that `saveEnvironment` builds from the editor, lines 307 to
314. -/
def savedVariables (envId : JSString) (rows : List EditorVariable) :
    List EnvironmentVariable :=
  (rows.filter (fun v => !v.key.isEmpty)).map
    (fun v =>
      { environment_id := envId, key := v.key, value := v.value,
        enabled := v.enabled != some false })

/-- The function `saveEnvironment`, lines 288 to 324: the final state and the
calls on the store, in order. Reading `user.id` of a null user throws. -/
def saveEnvironment (r : StoreReplies) (st : SessionState) :
    Except JSError (SessionState × List StoreCall) :=
  let first : Except JSError (Option JSString × List StoreCall) :=
    if envIdTruthy st.envEditor.id then
      .ok (st.envEditor.id,
        [StoreCall.updateEnvironment (st.envEditor.id.getD []) st.envEditor.name])
    else
      match st.user with
      | none => .error (propertyTypeError (utf16 "null") (utf16 "id"))
      | some user =>
        .ok (match r.inserted with
              | some id => some id
              | none => st.envEditor.id,
          [StoreCall.insertEnvironment user.id st.envEditor.name])
  match first with
  | .error err => .error err
  | .ok (envId, calls1) =>
    let calls2 : List StoreCall :=
      if envIdTruthy envId then
        let vars := savedVariables (envId.getD []) st.envEditor.variableRows
        StoreCall.deleteVariables (envId.getD [])
          :: (if vars.isEmpty then [] else [StoreCall.insertVariables vars])
      else []
    let fetched := fetchEnvironments r st
    let st2 : SessionState :=
      if envIdTruthy st.activeEnvId then fetched.1 else { fetched.1 with activeEnvId := envId }
    .ok ({ st2 with isEnvModalOpen := false }, calls1 ++ calls2 ++ fetched.2)

/-- The calls of `saveEnvironment` on the store; none when it throws before
the first call. -/
def saveEnvironmentCalls (r : StoreReplies) (st : SessionState) : List StoreCall :=
  match saveEnvironment r st with
  | .ok (_, calls) => calls
  | .error _ => []

/-- The function `deleteEnvironment`, lines 326 to 332; `confirmed` is the
answer to `confirm`. -/
def deleteEnvironment (confirmed : Bool) (r : StoreReplies) (st : SessionState) :
    SessionState × List StoreCall :=
  if !envIdTruthy st.envEditor.id || !confirmed then (st, [])
  else
    let fetched := fetchEnvironments r st
    let st2 : SessionState :=
      if st.activeEnvId = st.envEditor.id then { fetched.1 with activeEnvId := some [] }
      else fetched.1
    ({ st2 with isEnvModalOpen := false },
      StoreCall.deleteEnvironment (st.envEditor.id.getD []) :: fetched.2)

/-- The `onChange` of the environment select, lines 789 to 793: the value
`manage` opens the editor on a new environment, any other value becomes
`activeEnvId`. -/
def selectEnvironment (value : JSString) (st : SessionState) : SessionState :=
  if value = utf16 "manage" then
    { st with
        envEditor := {
          id := none, name := utf16 "New Environment",
          variableRows := [{ key := [], value := [], enabled := some true }] },
        isEnvModalOpen := true }
  else { st with activeEnvId := some value }

/-- The invariant on the active environment as the specification words it:
`activeEnvId` is empty, or the id of an environment of the loaded list. -/
def activeEnvironmentLoaded (st : SessionState) : Bool :=
  !envIdTruthy st.activeEnvId || st.environments.any (fun e => st.activeEnvId == some e.id)

/-- An example session: a signed-in user, one environment loaded and
active. -/
def demoSession : SessionState :=
  { user := some { id := utf16 "u1" }, isPasswordRecovery := false, collections := [],
    historyItems := [], environments := [{ id := utf16 "env1", name := utf16 "Staging" }],
    activeEnvId := some (utf16 "env1"),
    envEditor := { id := some (utf16 "env1"), name := utf16 "Staging", variableRows := [] },
    isEnvModalOpen := false }

/-- The example session with the editor holding two rows of key `a` and a row
without a key. -/
def duplicateKeySession : SessionState :=
  { demoSession with
      envEditor := {
        id := some (utf16 "env1"), name := utf16 "Staging",
        variableRows :=
          [ { key := utf16 "a", value := utf16 "1", enabled := some true },
            { key := [], value := utf16 "x", enabled := some true },
            { key := utf16 "a", value := utf16 "2", enabled := none } ] } }

/-- A store that answers every call. -/
def demoReplies : StoreReplies :=
  { inserted := some (utf16 "env2"),
    environments := some [{ id := utf16 "env1", name := utf16 "Staging" }] }

/-! ## The component `Auth`: updating the password -/

/-- The state variables of the component `Auth`, lines 23 to 32 of
`Auth.jsx`. -/
structure AuthState where
  view : JSString
  loading : Bool
  error : Option JSString
  message : Option JSString
  email : JSString
  password : JSString
  confirmPassword : JSString
  showPassword : Bool
  deriving DecidableEq

/-- The calls that `handleUpdatePassword` makes, in the order it makes
them. -/
inductive AuthCall where
  | preventDefault
  | setError (value : Option JSString)
  | setLoading (value : Bool)
  | setMessage (value : Option JSString)
  | updateUser (password : JSString)
  | alert (text : JSString)
  | signOut
  | onLogin
  | setView (value : JSString)
  | setPassword (value : JSString)
  | setConfirmPassword (value : JSString)
  deriving DecidableEq

/-- The collaborators of `handleUpdatePassword`: `updateUser` answers with
the message of its error (`none` when the update succeeds), `signOut` with
the message of its rejection (`none` when it resolves), and `onLogin` tells
whether the prop is given. -/
structure AuthWorld where
  updateUser : JSString → Option JSString
  signOut : Option JSString
  onLogin : Bool

/-- The function `handleUpdatePassword`, lines 120 to 154 of `Auth.jsx`: the
final state and the calls, in order. -/
def handleUpdatePassword (w : AuthWorld) (st : AuthState) : AuthState × List AuthCall :=
  if st.password ≠ st.confirmPassword then
    ({ st with error := some (utf16 "Passwords do not match") },
      [AuthCall.preventDefault, AuthCall.setError (some (utf16 "Passwords do not match"))])
  else
    let st1 := { st with loading := true, error := none, message := none }
    let opening : List AuthCall :=
      [AuthCall.preventDefault, AuthCall.setLoading true, AuthCall.setError none,
        AuthCall.setMessage none, AuthCall.updateUser st.password]
    match w.updateUser st.password with
    | some msg =>
      ({ st1 with error := some msg, loading := false },
        opening ++ [AuthCall.setError (some msg), AuthCall.setLoading false])
    | none =>
      let told : List AuthCall :=
        [AuthCall.alert
            (utf16 "Password updated successfully! Please log in with your new password."),
          AuthCall.signOut]
      match w.signOut with
      | some msg =>
        ({ st1 with error := some msg, loading := false },
          opening ++ told ++ [AuthCall.setError (some msg), AuthCall.setLoading false])
      | none =>
        ({ st1 with view := utf16 "login", password := [], confirmPassword := [],
                    loading := false },
          opening ++ told ++ (if w.onLogin then [AuthCall.onLogin] else [])
            ++ [AuthCall.setView (utf16 "login"), AuthCall.setPassword [],
                AuthCall.setConfirmPassword [], AuthCall.setLoading false])

/-- A store of accounts that accepts every update and sign-out. -/
def demoAuthWorld : AuthWorld :=
  { updateUser := fun _ => none, signOut := none, onLogin := true }

/-- The form of the view `update` with the given two password fields. -/
def updateForm (password confirmPassword : JSString) : AuthState :=
  { view := utf16 "update", loading := false, error := none, message := none, email := [],
    password := password, confirmPassword := confirmPassword, showPassword := false }

/-- An error envelope whose data is the number `1e21`. -/
def largeNumberEnvelope : JSValue :=
  .object [ (utf16 "data", .number { mantissa := 1, exponent := 21 }) ]

/-- An error envelope whose data is the object with the single member `price`
of value `9.99`. -/
def priceEnvelope : JSValue :=
  .object [ (utf16 "data",
    .object [ (utf16 "price", .number { mantissa := 999, exponent := -2 }) ]) ]

end ApiTester

namespace ApiTester

/-! ## Facts about the string built-ins -/

theorem prefix_iff_substring_eq (str pat : JSString) (i : Nat) :
    substring str i (i + pat.length) = pat ↔ pat <+: str.drop i := by
  unfold substring
  rw [List.prefix_iff_eq_take, Nat.add_sub_cancel_left]
  exact eq_comm

theorem StringIndexOf.loop_none (str pat : JSString) :
    ∀ (count i : Nat), StringIndexOf.loop str pat count i = none →
      ∀ j, i ≤ j → j < i + count → ¬ pat <+: str.drop j := by
  intro count
  induction count with
  | zero => intro i _ j h1 h2; omega
  | succ n ih =>
    intro i h j h1 h2
    unfold StringIndexOf.loop at h
    split at h
    · cases h
    · rename_i hne
      rcases Nat.eq_or_lt_of_le h1 with rfl | hlt
      · rwa [prefix_iff_substring_eq] at hne
      · exact ih (i + 1) h j hlt (by omega)

theorem StringIndexOf.loop_some (str pat : JSString) :
    ∀ (count i q : Nat), StringIndexOf.loop str pat count i = some q →
      i ≤ q ∧ q < i + count ∧ pat <+: str.drop q ∧
        ∀ j, i ≤ j → j < q → ¬ pat <+: str.drop j := by
  intro count
  induction count with
  | zero => intro i q h; simp [StringIndexOf.loop] at h
  | succ n ih =>
    intro i q h
    unfold StringIndexOf.loop at h
    split at h
    · rename_i heq
      cases h
      rw [prefix_iff_substring_eq] at heq
      exact ⟨le_refl _, by omega, heq, fun j h1 h2 => by omega⟩
    · rename_i hne
      rw [prefix_iff_substring_eq] at hne
      obtain ⟨h1, h2, h3, h4⟩ := ih (i + 1) q h
      refine ⟨by omega, by omega, h3, fun j hj1 hj2 => ?_⟩
      rcases Nat.eq_or_lt_of_le hj1 with rfl | hlt
      · exact hne
      · exact h4 j hlt hj2

theorem prefix_drop_length_le {str pat : JSString} {j : Nat} (h : pat <+: str.drop j) :
    pat.length + j ≤ str.length ∨ pat = [] := by
  have h1 := h.length_le
  rw [List.length_drop] at h1
  by_cases hp : pat = []
  · exact Or.inr hp
  · left
    have : 0 < pat.length := List.length_pos.mpr hp
    omega

theorem StringIndexOf_none {str pat : JSString} {p : Nat} (hp : pat ≠ [])
    (h : StringIndexOf str pat p = none) : ∀ j, p ≤ j → ¬ pat <+: str.drop j := by
  intro j hj hpre
  unfold StringIndexOf at h
  rw [if_neg (fun hc => hp hc.1)] at h
  rcases prefix_drop_length_le hpre with hl | hl
  · exact StringIndexOf.loop_none str pat _ p h j hj (by omega) hpre
  · exact hp hl

theorem StringIndexOf_some {str pat : JSString} {p q : Nat} (hp : pat ≠ [])
    (h : StringIndexOf str pat p = some q) :
    p ≤ q ∧ q + pat.length ≤ str.length ∧ pat <+: str.drop q ∧
      ∀ j, p ≤ j → j < q → ¬ pat <+: str.drop j := by
  unfold StringIndexOf at h
  rw [if_neg (fun hc => hp hc.1)] at h
  obtain ⟨h1, _, h3, h4⟩ := StringIndexOf.loop_some str pat _ p q h
  refine ⟨h1, ?_, h3, h4⟩
  rcases prefix_drop_length_le h3 with hl | hl
  · omega
  · exact absurd hl hp

theorem infix_iff_exists_prefix_drop (str pat : JSString) :
    pat <:+: str ↔ ∃ j, pat <+: str.drop j := by
  constructor
  · intro h
    obtain ⟨t, ht1, ht2⟩ := List.infix_iff_prefix_suffix.mp h
    rw [List.suffix_iff_eq_drop] at ht2
    exact ⟨_, ht2 ▸ ht1⟩
  · rintro ⟨j, hj⟩
    exact List.infix_iff_prefix_suffix.mpr ⟨_, hj, List.drop_suffix j str⟩

theorem includes_eq_true_iff {str pat : JSString} (hp : pat ≠ []) :
    includes str pat = true ↔ pat <:+: str := by
  unfold includes
  rw [infix_iff_exists_prefix_drop]
  constructor
  · intro h
    obtain ⟨q, hq⟩ := Option.isSome_iff_exists.mp h
    exact ⟨q, (StringIndexOf_some hp hq).2.2.1⟩
  · rintro ⟨j, hj⟩
    cases hres : StringIndexOf str pat 0 with
    | none => exact absurd hj (StringIndexOf_none hp hres j (Nat.zero_le _))
    | some q => rfl

theorem includes_eq_false_iff {str pat : JSString} (hp : pat ≠ []) :
    includes str pat = false ↔ ¬ pat <:+: str := by
  rw [← includes_eq_true_iff hp]; simp

/-! ## `replaceAll` as a left-to-right scan -/

theorem scanWith_nil (f : Nat → JSString) (pat : JSString) (k p : Nat) :
    scanWith f pat k p [] = [] := by
  cases k <;> rfl

theorem scanWith_skip (f : Nat → JSString) (pat : JSString) :
    ∀ (t : JSString) (k p : Nat),
      scanWith f pat k p t = scanWith f pat 0 (p + k) (t.drop k) := by
  intro t
  induction t with
  | nil => intro k p; simp [scanWith_nil]
  | cons c t ih =>
    intro k p
    cases k with
    | zero => simp
    | succ k =>
      rw [List.drop_succ_cons]
      simp only [scanWith]
      rw [ih k (p + 1)]
      congr 1
      omega

theorem scanWith_no_match (f : Nat → JSString) (pat : JSString) :
    ∀ (x t : JSString) (p : Nat), (∀ j, j < x.length → ¬ pat <+: (x ++ t).drop j) →
      scanWith f pat 0 p (x ++ t) = x ++ scanWith f pat 0 (p + x.length) t := by
  intro x
  induction x with
  | nil => intro t p _; simp
  | cons c x ih =>
    intro t p h
    have h0 : ¬ pat <+: c :: (x ++ t) := by
      have := h 0 (by simp)
      simpa using this
    have hrest : ∀ j, j < x.length → ¬ pat <+: (x ++ t).drop j := by
      intro j hj
      have := h (j + 1) (by simp; omega)
      simpa using this
    rw [List.cons_append]
    simp only [scanWith]
    rw [if_neg (by rw [ List.isPrefixOf_iff_prefix]; exact h0), ih t (p + 1) hrest]
    simp only [List.cons_append, List.length_cons]
    congr 3
    omega

theorem scanWith_match (f : Nat → JSString) {pat t : JSString} (q : Nat) (hp : pat ≠ [])
    (h : pat <+: t) :
    scanWith f pat 0 q t = f q ++ scanWith f pat 0 (q + pat.length) (t.drop pat.length) := by
  have hlen : 0 < pat.length := List.length_pos.mpr hp
  cases t with
  | nil => exact absurd (List.prefix_nil.mp h) hp
  | cons c t =>
    simp only [scanWith]
    rw [if_pos (by rw [ List.isPrefixOf_iff_prefix]; exact h), scanWith_skip f pat t]
    have e1 : q + 1 + (pat.length - 1) = q + pat.length := by omega
    have e2 : List.drop pat.length (c :: t) = List.drop (pat.length - 1) t := by
      obtain ⟨n, hn⟩ : ∃ n, pat.length = n + 1 := ⟨pat.length - 1, by omega⟩
      rw [hn]; simp
    rw [e1, e2]

theorem replaceAll.build_positions (str pat v : JSString) (hp : pat ≠ []) :
    ∀ (m fuel p : Nat) (acc : JSString), str.length - p < m → m ≤ fuel →
      replaceAll.build str pat v
          (replaceAll.positions str pat pat.length fuel (StringIndexOf str pat p)) p acc
        = acc ++ scanWith (fun q => GetSubstitution pat str q v) pat 0 p (str.drop p) := by
  intro m
  induction m with
  | zero => intro fuel p acc h; omega
  | succ m ih =>
    intro fuel p acc hm hfuel
    obtain ⟨fuel, rfl⟩ : ∃ n, fuel = n + 1 := ⟨fuel - 1, by omega⟩
    cases hres : StringIndexOf str pat p with
    | none =>
      have hno := StringIndexOf_none hp hres
      have hscan := scanWith_no_match (fun q => GetSubstitution pat str q v) pat
        (str.drop p) [] p (by
          intro j _
          rw [List.append_nil, List.drop_drop]
          exact hno (p + j) (by omega))
      rw [List.append_nil, scanWith_nil, List.append_nil] at hscan
      simp only [replaceAll.positions, replaceAll.build]
      rw [hscan]
      split
      · rfl
      · rw [List.drop_eq_nil_of_le (by omega)]; simp
    | some q =>
      obtain ⟨h1, h2, h3, h4⟩ := StringIndexOf_some hp hres
      have hlen : 0 < pat.length := List.length_pos.mpr hp
      simp only [replaceAll.positions, replaceAll.build]
      rw [ih fuel (q + pat.length) _ (by omega) (by omega)]
      have hsplit : str.drop p = substring str p q ++ str.drop q := by
        unfold substring
        have := List.take_append_drop (q - p) (str.drop p)
        rw [List.drop_drop] at this
        rw [show p + (q - p) = q by omega] at this
        exact this.symm
      have hsublen : (substring str p q).length = q - p := by
        unfold substring
        rw [List.length_take, List.length_drop]
        omega
      have hscan := scanWith_no_match (fun q => GetSubstitution pat str q v) pat
        (substring str p q) (str.drop q) p (by
          intro j hj
          rw [← hsplit, List.drop_drop]
          exact h4 (p + j) (by omega) (by omega))
      rw [hsplit, hscan, hsublen, show p + (q - p) = q by omega,
        scanWith_match _ q hp h3, List.drop_drop]
      simp [List.append_assoc]

theorem replaceAll_eq_scanWith (str pat v : JSString) (hp : pat ≠ []) :
    replaceAll str pat v
      = scanWith (fun q => GetSubstitution pat str q v) pat 0 0 str := by
  have hlen : 0 < pat.length := List.length_pos.mpr hp
  unfold replaceAll
  rw [show max 1 pat.length = pat.length by omega]
  have := replaceAll.build_positions str pat v hp (str.length + 1) (str.length + 2) 0 []
    (by omega) (by omega)
  simpa using this

theorem GetSubstitution_of_no_dollar (matched str : JSString) (position : Nat) :
    ∀ v : JSString, DOLLAR ∉ v → GetSubstitution matched str position v = v := by
  intro v
  induction v with
  | nil => intro _; rfl
  | cons c rest ih =>
    intro h
    have hc : c ≠ 36 := fun e => h (by simp [DOLLAR, e])
    have hrest : DOLLAR ∉ rest := fun e => h (List.mem_cons_of_mem _ e)
    cases rest with
    | nil => rfl
    | cons d rest =>
      unfold GetSubstitution
      rw [if_neg hc, ih hrest]

theorem scanWith_const_eq_replaceEveryLiteral (pat v : JSString) (hp : pat ≠ []) :
    ∀ (s : JSString) (k p : Nat),
      scanWith (fun _ => v) pat k p s = replaceEveryLiteral pat v k s := by
  have he : pat.isEmpty = false := by
    cases pat with
    | nil => exact absurd rfl hp
    | cons _ _ => rfl
  intro s
  induction s with
  | nil => intro k p; cases k <;> rfl
  | cons c t ih =>
    intro k p
    cases k with
    | succ k => simp only [scanWith, replaceEveryLiteral]; exact ih k (p + 1)
    | zero =>
      simp only [scanWith, replaceEveryLiteral, he, Bool.not_false, Bool.and_true]
      split
      · rw [ih]
      · rw [ih]

theorem replaceAll_eq_self_of_absent {str pat : JSString} (v : JSString) (hp : pat ≠ [])
    (h : ¬ pat <:+: str) : replaceAll str pat v = str := by
  rw [replaceAll_eq_scanWith str pat v hp]
  have := scanWith_no_match (fun q => GetSubstitution pat str q v) pat str [] 0 (by
    intro j _ hpre
    rw [List.append_nil] at hpre
    exact h ((infix_iff_exists_prefix_drop str pat).mpr ⟨j, hpre⟩))
  rw [List.append_nil, scanWith_nil, List.append_nil] at this
  exact this

theorem replaceAll_of_no_dollar (str pat v : JSString) (hp : pat ≠ []) (hv : DOLLAR ∉ v) :
    replaceAll str pat v = replaceEveryLiteral pat v 0 str := by
  rw [replaceAll_eq_scanWith str pat v hp,
    ← scanWith_const_eq_replaceEveryLiteral pat v hp str 0 0]
  congr 1
  funext q
  exact GetSubstitution_of_no_dollar pat str q v hv

/-! ## Facts about placeholders -/

theorem placeholder_eq (key : JSString) :
    placeholder key = 123 :: 123 :: (key ++ [125, 125]) := by
  unfold placeholder
  simp [openBraces, closeBraces, LBRACE, RBRACE]

theorem placeholder_ne_nil (key : JSString) : placeholder key ≠ [] := by
  rw [placeholder_eq]; exact List.cons_ne_nil _ _

theorem openBraces_in_placeholder (key : JSString) : openBraces <:+: placeholder key :=
  ⟨[], key ++ closeBraces, by simp [placeholder]⟩

theorem closeBraces_in_placeholder (key : JSString) : closeBraces <:+: placeholder key :=
  ⟨openBraces ++ key, [], by simp [placeholder]⟩

theorem substituteAll_eq_resolveReference :
    ∀ (vars : List Binding) (text : JSString), (∀ b ∈ vars, DOLLAR ∉ b.value) →
      substituteAll vars text = resolveReference vars text := by
  intro vars
  induction vars with
  | nil => intro text _; rfl
  | cons b vars ih =>
    intro text h
    unfold substituteAll resolveReference
    rw [List.foldl_cons, List.foldl_cons,
      replaceAll_of_no_dollar text (placeholder b.key) b.value (placeholder_ne_nil _)
        (h b (List.mem_cons_self _ _))]
    exact ih _ (fun b hb => h b (List.mem_cons_of_mem _ hb))

theorem substituteAll_eq_self_of_absent :
    ∀ (vars : List Binding) (text : JSString),
      (∀ b ∈ vars, ¬ placeholder b.key <:+: text) → substituteAll vars text = text := by
  intro vars
  induction vars with
  | nil => intro text _; rfl
  | cons b vars ih =>
    intro text h
    unfold substituteAll
    rw [List.foldl_cons, replaceAll_eq_self_of_absent b.value (placeholder_ne_nil _)
      (h b (List.mem_cons_self _ _))]
    exact ih text (fun b hb => h b (List.mem_cons_of_mem _ hb))

theorem key_eq_of_append_close :
    ∀ (kx ky r1 r2 : JSString), RBRACE ∉ kx → RBRACE ∉ ky →
      kx ++ 125 :: r1 = ky ++ 125 :: r2 → kx = ky := by
  intro kx
  induction kx with
  | nil =>
    intro ky r1 r2 _ hy h
    cases ky with
    | nil => rfl
    | cons c ky =>
      simp only [List.nil_append, List.cons_append, List.cons.injEq] at h
      exact absurd (by simp [RBRACE, h.1]) hy
  | cons c kx ih =>
    intro ky r1 r2 hx hy h
    cases ky with
    | nil =>
      simp only [List.nil_append, List.cons_append, List.cons.injEq] at h
      exact absurd (by simp [RBRACE, h.1]) hx
    | cons d ky =>
      simp only [List.cons_append, List.cons.injEq] at h
      rw [h.1, ih ky r1 r2 (fun e => hx (List.mem_cons_of_mem _ e))
        (fun e => hy (List.mem_cons_of_mem _ e)) h.2]

theorem key_eq_of_append_close_exact :
    ∀ (k k2 b : JSString), RBRACE ∉ k →
      k2 ++ 125 :: 125 :: b = k ++ [125, 125] → k2 = k := by
  intro k
  induction k with
  | nil =>
    intro k2 b _ h
    have := congrArg List.length h
    simp at this
    exact List.length_eq_zero.mp (by omega)
  | cons c k ih =>
    intro k2 b hk h
    cases k2 with
    | nil =>
      simp only [List.nil_append, List.cons_append, List.cons.injEq] at h
      exact absurd (by simp [RBRACE, ← h.1]) hk
    | cons d k2 =>
      simp only [List.cons_append, List.cons.injEq] at h
      rw [h.1, ih k2 b (fun e => hk (List.mem_cons_of_mem _ e)) h.2]

theorem lbrace_not_mem_key_close {k : JSString} (hk : LBRACE ∉ k) :
    123 ∉ k ++ [125, 125] := by
  intro h
  rcases List.mem_append.mp h with h | h
  · exact hk h
  · simp at h

/-- A placeholder that occurs inside the placeholder of a brace-free key is
that placeholder. -/
theorem placeholder_infix_placeholder {k k2 : JSString} (hk : braceFree k)
    (h : placeholder k2 <:+: placeholder k) : k2 = k := by
  obtain ⟨a, b, h⟩ := h
  rw [placeholder_eq, placeholder_eq] at h
  have hL := lbrace_not_mem_key_close hk.1
  match a, h with
  | [], h =>
    simp only [List.nil_append, List.cons_append, List.cons.injEq, true_and,
      List.append_assoc] at h
    exact key_eq_of_append_close_exact k k2 b hk.2 h
  | [c], h =>
    simp only [List.cons_append, List.nil_append, List.cons.injEq, List.append_assoc] at h
    exact absurd (by rw [← h.2.2]; simp) hL
  | c :: d :: a, h =>
    simp only [List.cons_append, List.cons.injEq, List.append_assoc] at h
    exact absurd (by rw [← h.2.2]; simp) hL

/-- Two placeholders of brace-free keys overlap in a string only when they
are the same occurrence of the same placeholder. -/
theorem placeholder_overlap {kx ky u x2 t b : JSString} (hx : braceFree kx)
    (hy : braceFree ky) (hsplit : placeholder kx = u ++ x2) (hne : x2 ≠ [])
    (h : x2 ++ t = placeholder ky ++ b) : u = [] ∧ kx = ky := by
  rw [placeholder_eq] at hsplit h
  have hL := lbrace_not_mem_key_close hx.1
  match u, hsplit with
  | [], hsplit =>
    rw [List.nil_append] at hsplit
    subst hsplit
    simp only [List.cons_append, List.cons.injEq, true_and, List.append_assoc,
      List.nil_append] at h
    exact ⟨rfl, key_eq_of_append_close kx ky _ _ hx.2 hy.2 h⟩
  | [c], hsplit =>
    simp only [List.cons_append, List.nil_append, List.cons.injEq] at hsplit
    rw [← hsplit.2] at h
    simp only [List.cons_append, List.cons.injEq, true_and, List.append_assoc] at h
    cases kx with
    | nil => simp at h
    | cons d kx =>
      simp only [List.cons_append, List.cons.injEq] at h
      exact absurd (by rw [h.1]; simp) hL
  | c :: d :: u, hsplit =>
    simp only [List.cons_append, List.cons.injEq] at hsplit
    cases x2 with
    | nil => exact absurd rfl hne
    | cons e x2 =>
      simp only [List.cons_append, List.cons.injEq] at h
      exact absurd (by rw [hsplit.2.2, h.1]; simp) hL

/-! ## Occurrences that a replacement leaves in place -/

theorem scanWith_keeps_occurrence (f : Nat → JSString) {pat N : JSString}
    (hA : ∀ a b : JSString, pat <+: a ++ N ++ b → pat.length ≤ a.length)
    (hB : ∀ u n2 b : JSString, N = u ++ n2 → n2 ≠ [] → ¬ pat <+: n2 ++ b) :
    ∀ (a b : JSString) (k p : Nat), k ≤ a.length →
      N <:+: scanWith f pat k p (a ++ N ++ b) := by
  intro a
  induction a with
  | nil =>
    intro b k p hk
    have hk0 : k = 0 := by simpa using hk
    subst hk0
    rw [List.nil_append, scanWith_no_match f pat N b p (by
      intro j hj
      rw [List.drop_append_of_le_length (le_of_lt hj)]
      exact hB (N.take j) (N.drop j) b (List.take_append_drop j N).symm
        (by rw [Ne, List.drop_eq_nil_iff]; omega))]
    exact (List.prefix_append _ _).isInfix
  | cons c a ih =>
    intro b k p hk
    cases k with
    | succ k =>
      simp only [List.cons_append, scanWith]
      exact ih b k (p + 1) (by simpa using hk)
    | zero =>
      simp only [List.cons_append, scanWith]
      split
      · rename_i hpre
        rw [ List.isPrefixOf_iff_prefix] at hpre
        have hlen := hA (c :: a) b (by simpa using hpre)
        have := ih b (pat.length - 1) (p + 1) (by simp at hlen; omega)
        exact this.trans (List.suffix_append _ _).isInfix
      · exact List.infix_cons (ih b 0 (p + 1) (Nat.zero_le _))

/-- A replacement of the placeholder of one brace-free key leaves every
occurrence of the placeholder of another brace-free key in the text. -/
theorem replaceAll_preserves_placeholder {k k2 : JSString} (v : JSString)
    (hk : braceFree k) (hk2 : braceFree k2) (hne : k2 ≠ k) {s : JSString}
    (h : placeholder k <:+: s) : placeholder k <:+: replaceAll s (placeholder k2) v := by
  obtain ⟨a, b, rfl⟩ := h
  rw [replaceAll_eq_scanWith _ _ v (placeholder_ne_nil k2)]
  refine scanWith_keeps_occurrence _ ?_ ?_ a b 0 0 (Nat.zero_le _)
  · intro a2 b2 hpre
    obtain ⟨t, ht⟩ := hpre
    rw [List.append_assoc a2, List.append_eq_append_iff] at ht
    rcases ht with ⟨a3, ha3, _⟩ | ⟨c3, hc3, hrest⟩
    · rw [ha3, List.length_append]; omega
    · by_cases hc : c3 = []
      · subst hc
        rw [List.append_nil] at hc3
        rw [hc3]
      · exact absurd (placeholder_overlap hk2 hk hc3 hc hrest.symm).2 hne
  · intro u n2 b2 hsplit hn2 hpre
    obtain ⟨t, ht⟩ := hpre
    exact hne (placeholder_overlap hk hk2 hsplit hn2 ht.symm).2.symm

theorem substituteAll_preserves_placeholder {k : JSString} (hk : braceFree k) :
    ∀ (vars : List Binding) (s : JSString),
      (∀ b ∈ vars, braceFree b.key ∧ b.key ≠ k) → placeholder k <:+: s →
        placeholder k <:+: substituteAll vars s := by
  intro vars
  induction vars with
  | nil => intro s _ h; exact h
  | cons b vars ih =>
    intro s hv h
    unfold substituteAll
    rw [List.foldl_cons]
    have hb := hv b (List.mem_cons_self _ _)
    exact ih _ (fun b2 hb2 => hv b2 (List.mem_cons_of_mem _ hb2))
      (replaceAll_preserves_placeholder b.value hk hb.1 hb.2 h)

theorem hasPlaceholder_of_occurrence {k s : JSString} (h : placeholder k <:+: s) :
    hasPlaceholder s = true := by
  obtain ⟨a, b, rfl⟩ := h
  have hopen : openBraces ≠ [] := by decide
  have hclose : closeBraces ≠ [] := by decide
  have hdrop : (a ++ placeholder k ++ b).drop (a.length + 2) = k ++ closeBraces ++ b := by
    rw [List.append_assoc, List.drop_append, placeholder_eq]
    simp [closeBraces, RBRACE]
  have hmatch : openBraces <+: (a ++ placeholder k ++ b).drop a.length := by
    rw [List.append_assoc, List.drop_left]
    exact ⟨k ++ closeBraces ++ b, by simp [placeholder]⟩
  unfold hasPlaceholder
  cases hres : StringIndexOf (a ++ placeholder k ++ b) (openBraces) 0 with
  | none => exact absurd hmatch (StringIndexOf_none hopen hres _ (Nat.zero_le _))
  | some i =>
    obtain ⟨_, _, _, h4⟩ := StringIndexOf_some hopen hres
    have hi : i ≤ a.length := by
      by_contra hc
      exact h4 a.length (Nat.zero_le _) (by omega) hmatch
    simp only
    rw [includes_eq_true_iff hclose]
    have hsuf : (a ++ placeholder k ++ b).drop (a.length + 2)
        <:+ (a ++ placeholder k ++ b).drop (i + 2) := by
      have := List.drop_suffix (a.length - i) ((a ++ placeholder k ++ b).drop (i + 2))
      rwa [List.drop_drop, show i + 2 + (a.length - i) = a.length + 2 by omega] at this
    rw [hdrop] at hsuf
    exact (List.infix_append _ _ _).trans hsuf.isInfix

theorem replaceAll_self (pat v : JSString) (hp : pat ≠ []) (hv : DOLLAR ∉ v) :
    replaceAll pat pat v = v := by
  rw [replaceAll_eq_scanWith pat pat v hp, scanWith_match _ 0 hp (List.prefix_refl pat)]
  simp [scanWith_nil, GetSubstitution_of_no_dollar pat pat 0 v hv]

/-! ## The resolver -/

theorem mem_selectEnabled {supabase : Supabase} {id : JSString} {vars : List Binding}
    (h : supabase.selectEnabled id = some vars) {b : Binding} (hb : b ∈ vars) :
    ∃ row ∈ supabase.environment_variables,
      row.environment_id = id ∧ row.enabled = true ∧ row.key = b.key ∧ row.value = b.value := by
  unfold Supabase.selectEnabled at h
  split at h
  · cases h
    obtain ⟨row, hrow, rfl⟩ := List.mem_map.mp hb
    rw [List.mem_filter] at hrow
    simp only [Bool.and_eq_true, decide_eq_true_eq] at hrow
    exact ⟨row, hrow.1, hrow.2.1, hrow.2.2, rfl, rfl⟩
  · cases h

theorem interpolate_of_selectEnabled {supabase : Supabase} {id text : JSString}
    {vars : List Binding} (htext : openBraces <:+: text) (hid : id ≠ [])
    (hvars : supabase.selectEnabled id = some vars) :
    interpolate supabase (some id) text = substituteAll vars text := by
  have hinc : includes text (openBraces) = true :=
    (includes_eq_true_iff (by decide)).mpr htext
  have htne : text.isEmpty = false := by
    cases text with
    | nil => exact absurd htext (by decide)
    | cons _ _ => rfl
  have hine : id.isEmpty = false := by
    cases id with
    | nil => exact absurd rfl hid
    | cons _ _ => rfl
  simp only [interpolate, htne, hine, hinc, hvars, Bool.not_true, Bool.or_self,
    Bool.false_eq_true, if_false]

theorem interpolate_eq_text_or_substituteAll (supabase : Supabase)
    (activeEnvId : Option JSString) (text : JSString) :
    interpolate supabase activeEnvId text = text ∨
      ∃ id vars, activeEnvId = some id ∧ supabase.selectEnabled id = some vars ∧
        interpolate supabase activeEnvId text = substituteAll vars text := by
  unfold interpolate
  cases activeEnvId with
  | none => exact Or.inl rfl
  | some id =>
    simp only
    split
    · exact Or.inl rfl
    · cases hsel : supabase.selectEnabled id with
      | none => exact Or.inl rfl
      | some vars => exact Or.inr ⟨id, vars, rfl, hsel, rfl⟩

/-! ## Claims on the resolver -/

/-- C1: when the active environment id is null or empty, or the text has no
two consecutive opening braces, `interpolate` returns the text unchanged,
whatever the store holds. -/
theorem interpolate_short_circuit (supabase : Supabase) (activeEnvId : Option JSString)
    (text : JSString) (h : envIdTruthy activeEnvId = false ∨ ¬ openBraces <:+: text) :
    interpolate supabase activeEnvId text = text := by
  unfold interpolate
  cases activeEnvId with
  | none => rfl
  | some id =>
    simp only
    rcases h with h | h
    · have hid : id.isEmpty = true := by simpa [envIdTruthy] using h
      simp [hid]
    · have hinc : includes text openBraces = false :=
        (includes_eq_false_iff (by decide)).mpr h
      simp [hinc]

theorem interpolate_short_circuit_witness :
    interpolate demoStore (some (utf16 "env1")) (utf16 "https://api.example.com/users")
      = utf16 "https://api.example.com/users" :=
  interpolate_short_circuit demoStore (some (utf16 "env1"))
    (utf16 "https://api.example.com/users") (Or.inr (by decide))

/-- C2: with the single enabled binding `k` to the value `$$`, resolving the
placeholder of `k` returns `$`, not the value: `replaceAll` reads the value
as a replacement template. -/
theorem interpolate_dollar_value :
    interpolate (storeOf [{ key := utf16 "k", value := utf16 "$$" }]) (some (utf16 "env1"))
        (placeholder (utf16 "k")) = utf16 "$"
      ∧ utf16 "$" ≠ utf16 "$$" := by
  decide

/-- C3, as stated, fails: with the enabled bindings `a` to the placeholder of
`b` and `b` to `x`, stored in that order, resolving the placeholder of `a`
yields `x`, not the placeholder of `b`. -/
theorem interpolate_expands_later_binding :
    interpolate
        (storeOf [{ key := utf16 "a", value := placeholder (utf16 "b") },
          { key := utf16 "b", value := utf16 "x" }])
        (some (utf16 "env1")) (placeholder (utf16 "a")) = utf16 "x"
      ∧ utf16 "x" ≠ placeholder (utf16 "b") := by
  decide

/-- C3, amended: the value substituted for a placeholder is not expanded by
the binding that substituted it nor by the bindings stored before it, whatever
placeholders it contains; only the bindings stored after it are applied to
it. For a brace-free key `k` bound to a value `v` without `$`, after the
bindings `pre` (none of key `k`) and before the bindings `post`, resolving
the placeholder of `k` yields `v` with the bindings `post` applied. -/
theorem interpolate_value_not_rescanned (supabase : Supabase) (id k v : JSString)
    (pre post : List Binding) (hid : id ≠ []) (hk : braceFree k) (hv : DOLLAR ∉ v)
    (hsel : supabase.selectEnabled id = some (pre ++ { key := k, value := v } :: post))
    (hpre : ∀ b ∈ pre, b.key ≠ k) :
    interpolate supabase (some id) (placeholder k) = substituteAll post v := by
  rw [interpolate_of_selectEnabled (openBraces_in_placeholder k) hid hsel]
  unfold substituteAll
  rw [List.foldl_append, List.foldl_cons]
  have hsame := substituteAll_eq_self_of_absent pre (placeholder k) (fun b hb hin =>
    hpre b hb (placeholder_infix_placeholder hk hin))
  unfold substituteAll at hsame
  rw [hsame, replaceAll_self _ v (placeholder_ne_nil k) hv]

theorem interpolate_value_not_rescanned_witness :
    interpolate
        (storeOf [{ key := utf16 "b", value := utf16 "x" },
          { key := utf16 "a", value := placeholder (utf16 "b") }])
        (some (utf16 "env1")) (placeholder (utf16 "a")) = placeholder (utf16 "b") :=
  interpolate_value_not_rescanned _ (utf16 "env1") (utf16 "a") (placeholder (utf16 "b"))
    [{ key := utf16 "b", value := utf16 "x" }] [] (by decide) (by decide) (by decide)
    (by decide) (by decide)

/-- C4: for a text that contains two consecutive opening braces, a non-empty
environment id and a list of enabled bindings whose values contain no `$`,
`interpolate` equals the left fold over the bindings, in stored order, of the
step that replaces every occurrence of the literal placeholder of the key in
the accumulated string by the value. -/
theorem interpolate_eq_resolveReference (supabase : Supabase) (id text : JSString)
    (vars : List Binding) (htext : openBraces <:+: text) (hid : id ≠ [])
    (hsel : supabase.selectEnabled id = some vars) (hdollar : ∀ b ∈ vars, DOLLAR ∉ b.value) :
    interpolate supabase (some id) text = resolveReference vars text := by
  rw [interpolate_of_selectEnabled htext hid hsel]
  exact substituteAll_eq_resolveReference vars text hdollar

theorem interpolate_eq_resolveReference_witness :
    interpolate demoStore (some (utf16 "env1")) demoUrl
      = resolveReference [{ key := utf16 "path", value := utf16 "v1/users" }] demoUrl :=
  interpolate_eq_resolveReference demoStore (utf16 "env1") demoUrl
    [{ key := utf16 "path", value := utf16 "v1/users" }] (by decide) (by decide) (by decide)
    (by decide)

/-- C5: for a key `k` without brace characters and a store in which no
enabled binding of the active environment has the key `k`, resolving the
placeholder of `k` returns it unchanged. -/
theorem interpolate_unknown_placeholder (supabase : Supabase) (activeEnvId : Option JSString)
    (k : JSString) (hk : braceFree k)
    (hno : ∀ row ∈ supabase.environment_variables,
      activeEnvId = some row.environment_id → row.enabled = true → row.key ≠ k) :
    interpolate supabase activeEnvId (placeholder k) = placeholder k := by
  rcases interpolate_eq_text_or_substituteAll supabase activeEnvId (placeholder k) with
    h | ⟨id, vars, hid, hsel, h⟩
  · exact h
  · rw [h]
    refine substituteAll_eq_self_of_absent vars (placeholder k) (fun b hb hin => ?_)
    obtain ⟨row, hrow, henv, hen, hkey, _⟩ := mem_selectEnabled hsel hb
    exact hno row hrow (by rw [hid, henv]) hen
      (hkey.trans (placeholder_infix_placeholder hk hin))

theorem interpolate_unknown_placeholder_witness :
    interpolate demoStore (some (utf16 "env1")) (placeholder (utf16 "missing"))
      = placeholder (utf16 "missing") :=
  interpolate_unknown_placeholder demoStore (some (utf16 "env1")) (utf16 "missing")
    (by decide) (by decide)

/-- C6, as stated, fails: the key `k` is the key of no binding, the text
contains the placeholder of `k`, and the output does not: the enabled binding
of key `k}}` has a placeholder that covers that of `k`. -/
theorem interpolate_drops_covered_placeholder :
    placeholder (utf16 "k") <:+: placeholder (utf16 "k") ++ closeBraces
      ∧ ¬ placeholder (utf16 "k") <:+:
          interpolate (storeOf [{ key := utf16 "k" ++ closeBraces, value := utf16 "v" }])
            (some (utf16 "env1")) (placeholder (utf16 "k") ++ closeBraces) := by
  decide

/-- C6, amended: when the key `k` and the keys of the enabled bindings of the
active environment contain no brace character, and `k` is not one of these
keys, a text that contains the placeholder of `k` resolves to a text that
still contains it. -/
theorem interpolate_keeps_unresolvable (supabase : Supabase)
    (activeEnvId : Option JSString) (text k : JSString) (hk : braceFree k)
    (hkeys : ∀ row ∈ supabase.environment_variables,
      activeEnvId = some row.environment_id → row.enabled = true →
        braceFree row.key ∧ row.key ≠ k)
    (htext : placeholder k <:+: text) :
    placeholder k <:+: interpolate supabase activeEnvId text := by
  rcases interpolate_eq_text_or_substituteAll supabase activeEnvId text with
    h | ⟨id, vars, hid, hsel, h⟩
  · rw [h]; exact htext
  · rw [h]
    refine substituteAll_preserves_placeholder hk vars text (fun b hb => ?_) htext
    obtain ⟨row, hrow, henv, hen, hkey, _⟩ := mem_selectEnabled hsel hb
    have := hkeys row hrow (by rw [hid, henv]) hen
    rw [hkey] at this
    exact this

theorem interpolate_keeps_unresolvable_witness :
    placeholder (utf16 "missing") <:+:
      interpolate demoStore (some (utf16 "env1")) (demoUrl ++ placeholder (utf16 "missing")) :=
  interpolate_keeps_unresolvable demoStore (some (utf16 "env1"))
    (demoUrl ++ placeholder (utf16 "missing")) (utf16 "missing") (by decide) (by decide)
    (by decide)

/-- C7: the result of `interpolate` is the same as its result on the store
with every row whose `enabled` is false removed; a disabled binding never
causes a substitution. -/
theorem interpolate_ignores_disabled (supabase : Supabase) (activeEnvId : Option JSString)
    (text : JSString) :
    interpolate supabase activeEnvId text
      = interpolate
          { supabase with
            environment_variables := supabase.environment_variables.filter (fun v => v.enabled) }
          activeEnvId text := by
  have hsel : ∀ id, supabase.selectEnabled id
      = Supabase.selectEnabled
          { supabase with
            environment_variables := supabase.environment_variables.filter (fun v => v.enabled) }
          id := by
    intro id
    unfold Supabase.selectEnabled
    simp only [List.filter_filter]
    congr 3
    apply List.filter_congr
    intro v _
    cases v.enabled <;> simp
  unfold interpolate
  cases activeEnvId with
  | none => rfl
  | some id => simp only [hsel id]

/-- C8: when the result of `interpolate` contains no placeholder (two opening
braces followed at any distance by two closing braces), applying
`interpolate` to it again, with the same environment and store, yields the
same string. -/
theorem interpolate_idempotent (supabase : Supabase) (activeEnvId : Option JSString)
    (text : JSString)
    (h : hasPlaceholder (interpolate supabase activeEnvId text) = false) :
    interpolate supabase activeEnvId (interpolate supabase activeEnvId text)
      = interpolate supabase activeEnvId text := by
  rcases interpolate_eq_text_or_substituteAll supabase activeEnvId
      (interpolate supabase activeEnvId text) with h2 | ⟨id, vars, _, _, h2⟩
  · exact h2
  · rw [h2]
    refine substituteAll_eq_self_of_absent vars _ (fun b _ hin => ?_)
    rw [hasPlaceholder_of_occurrence hin] at h
    exact absurd h (by decide)

theorem interpolate_idempotent_witness :
    interpolate demoStore (some (utf16 "env1"))
        (interpolate demoStore (some (utf16 "env1")) demoUrl)
      = interpolate demoStore (some (utf16 "env1")) demoUrl :=
  interpolate_idempotent demoStore (some (utf16 "env1")) demoUrl (by decide)

/-! ## The send pipeline -/

theorem composeRequest_url {w : World} {st : AppState} {req : ProxyRequest}
    (h : composeRequest w st = .ok req) :
    req.url = interpolate w.supabase st.activeEnvId st.url := by
  unfold composeRequest at h
  simp only at h
  split at h
  · cases h
  · split at h
    · cases h; rfl
    · split at h
      · cases h
      · cases h; rfl

theorem composeRequest_of_invalid_url {w : World} {st : AppState}
    (h : w.urlParses (interpolate w.supabase st.activeEnvId st.url) = false) :
    composeRequest w st = .error { message := utf16 "Malformed URL", code := none } := by
  unfold composeRequest
  simp [h]

theorem composeRequest_isOk {w : World} {st : AppState}
    (hurl : w.urlParses (interpolate w.supabase st.activeEnvId st.url) = true)
    (hbody : (trim st.body).isEmpty = true
      ∨ (w.jsonParse (interpolate w.supabase st.activeEnvId st.body)).isSome = true) :
    ∃ req, composeRequest w st = .ok req := by
  unfold composeRequest
  simp only [hurl, Bool.not_true, Bool.false_eq_true, if_false]
  split
  · exact ⟨_, rfl⟩
  · rcases hbody with hb | hb
    · rename_i hne
      exact absurd hb hne
    · obtain ⟨v, hv⟩ := Option.isSome_iff_exists.mp hb
      rw [hv]
      exact ⟨_, rfl⟩

theorem proxyRequests_processReply {st st2 : AppState} {status : Nat} {data : JSValue}
    {effects : List Effect} (h : processReply st status data = .ok (st2, effects)) :
    proxyRequests effects = [] := by
  have hhist : ∀ u : Option User,
      proxyRequests (if u.isSome then [Effect.fetchHistory] else []) = [] := by
    intro u; cases u <;> rfl
  unfold processReply at h
  split at h
  · cases h; rfl
  · simp only at h
    split at h
    · split at h
      · cases h
      · cases h; exact hhist _
    · split at h
      · cases h; exact hhist _
      all_goals cases h

/-- The requests handed to the proxy by `handleSend`: none when a guard
answers or the composition throws, the composed request otherwise. -/
theorem proxyRequests_handleSend (w : World) (st : AppState) :
    proxyRequests (handleSend w st).2
      = if (trim st.url).isEmpty = true ∨ w.onLine = false then []
        else
          match composeRequest w st with
          | .ok req => [req]
          | .error _ => [] := by
  unfold handleSend
  by_cases hblank : (trim st.url).isEmpty = true
  · simp [hblank, proxyRequests]
  · by_cases hon : w.onLine = true
    · simp only [hblank, hon, Bool.not_true, Bool.false_eq_true, if_false, or_self]
      cases hreq : composeRequest w st with
      | error err => rfl
      | ok req =>
        simp only
        cases hpost : w.post req with
        | rejected err => rfl
        | resolved status data =>
          simp only
          cases hrep : processReply
              { st with loading := true, error := none, response := none } status data with
          | error err => rfl
          | ok res =>
            obtain ⟨st2, effects⟩ := res
            simp [proxyRequests, proxyRequests_processReply hrep]
    · have hoff : w.onLine = false := by simpa using hon
      simp [hblank, hoff, proxyRequests]

/-- C9: when the resolved URL parses as an absolute URL and the body is
blank or its resolved text is valid JSON, the `url` field of every request
that `handleSend` hands to the proxy is exactly `interpolate` of the draft
URL; and once the two guards of `handleSend` pass (the draft URL is not blank,
the browser is online) exactly one request is handed to the proxy. -/
theorem handleSend_request_url (w : World) (st : AppState)
    (hurl : w.urlParses (interpolate w.supabase st.activeEnvId st.url) = true)
    (hbody : (trim st.body).isEmpty = true
      ∨ (w.jsonParse (interpolate w.supabase st.activeEnvId st.body)).isSome = true) :
    (∀ req ∈ proxyRequests (handleSend w st).2,
        req.url = interpolate w.supabase st.activeEnvId st.url)
      ∧ (w.onLine = true → (trim st.url).isEmpty = false →
          ∃ req, proxyRequests (handleSend w st).2 = [req]
            ∧ req.url = interpolate w.supabase st.activeEnvId st.url) := by
  obtain ⟨req, hreq⟩ := composeRequest_isOk hurl hbody
  have hreqUrl := composeRequest_url hreq
  rw [proxyRequests_handleSend, hreq]
  constructor
  · intro r hr
    split at hr
    · cases hr
    · simp only [List.mem_singleton] at hr
      rw [hr]; exact hreqUrl
  · intro hon hblank
    refine ⟨req, ?_, hreqUrl⟩
    simp [hon, hblank]

theorem handleSend_request_url_witness :
    ∃ req, proxyRequests (handleSend (demoWorld true) (demoState demoUrl)).2 = [req]
      ∧ req.url = utf16 "https://api.example.com/v1/users" := by
  obtain ⟨req, h1, h2⟩ :=
    (handleSend_request_url (demoWorld true) (demoState demoUrl) (by decide)
      (Or.inl (by decide))).2 (by decide) (by decide)
  exact ⟨req, h1, h2.trans (by decide)⟩

/-- C10, as stated, fails: offline, with a draft URL that is not blank and
does not parse, the error of `handleSend` has the status label `Offline`, not
`Client Error`. -/
theorem handleSend_offline_invalid_url :
    (demoWorld false).urlParses
        (interpolate (demoWorld false).supabase (demoState (utf16 "not a url")).activeEnvId
          (demoState (utf16 "not a url")).url) = false
      ∧ (handleSend (demoWorld false) (demoState (utf16 "not a url"))).1.error.map
          (fun e => e.status) = some (ErrorStatus.label (utf16 "Offline"))
      ∧ ErrorStatus.label (utf16 "Offline") ≠ ErrorStatus.label (utf16 "Client Error") := by
  decide

/-- C10, amended: when the resolved URL does not parse as an absolute URL,
`handleSend` makes no call to the proxy, sets no Response (the field is
cleared, or left as it was when a guard answers) and sets an error; the status
label of that error is `Client Error` when the draft URL is blank or the
browser is online. -/
theorem handleSend_invalid_url (w : World) (st : AppState)
    (hurl : w.urlParses (interpolate w.supabase st.activeEnvId st.url) = false) :
    (∃ e, (handleSend w st).1.error = some e
        ∧ ((trim st.url).isEmpty = true ∨ w.onLine = true →
            e.status = ErrorStatus.label (utf16 "Client Error")))
      ∧ (handleSend w st).1.response
          = (if (trim st.url).isEmpty = true ∨ w.onLine = false then st.response else none)
      ∧ proxyRequests (handleSend w st).2 = [] := by
  refine ⟨?_, ?_, ?_⟩
  · unfold handleSend
    by_cases hblank : (trim st.url).isEmpty = true
    · simp only [hblank, if_true]
      exact ⟨_, rfl, fun _ => rfl⟩
    · by_cases hon : w.onLine = true
      · simp only [hblank, hon, Bool.not_true, Bool.false_eq_true, if_false,
          composeRequest_of_invalid_url hurl]
        exact ⟨_, rfl, fun _ => by decide⟩
      · have hoff : w.onLine = false := by simpa using hon
        simp only [hblank, hoff, Bool.not_false, Bool.false_eq_true, if_false, if_true]
        exact ⟨_, rfl, fun h => by simp [hblank] at h⟩
  · unfold handleSend
    by_cases hblank : (trim st.url).isEmpty = true
    · simp [hblank]
    · by_cases hon : w.onLine = true
      · simp [hblank, hon, composeRequest_of_invalid_url hurl]
      · have hoff : w.onLine = false := by simpa using hon
        simp [hblank, hoff]
  · rw [proxyRequests_handleSend, composeRequest_of_invalid_url hurl]
    split <;> rfl

theorem handleSend_invalid_url_witness :
    (∃ e, (handleSend (demoWorld true) (demoState (utf16 "not a url"))).1.error = some e
        ∧ e.status = ErrorStatus.label (utf16 "Client Error"))
      ∧ (handleSend (demoWorld true) (demoState (utf16 "not a url"))).1.response = none
      ∧ proxyRequests (handleSend (demoWorld true) (demoState (utf16 "not a url"))).2 = [] := by
  obtain ⟨⟨e, he, hs⟩, hr, hp⟩ :=
    handleSend_invalid_url (demoWorld true) (demoState (utf16 "not a url")) (by decide)
  exact ⟨⟨e, he, hs (Or.inr rfl)⟩, hr, hp⟩

/-! ## Claims on the composition of the request -/

theorem composeRequest_of_blank_body {w : World} {st : AppState}
    (hurl : w.urlParses (interpolate w.supabase st.activeEnvId st.url) = true)
    (hbody : (trim st.body).isEmpty = true) :
    composeRequest w st
      = .ok { url := interpolate w.supabase st.activeEnvId st.url, method := st.method,
              headers := finalHeaders w st, body := .object [],
              user_id := st.user.map (fun u => u.id) } := by
  unfold composeRequest
  simp [hurl, hbody]

theorem composeRequest_of_invalid_body {w : World} {st : AppState}
    (hurl : w.urlParses (interpolate w.supabase st.activeEnvId st.url) = true)
    (hbody : (trim st.body).isEmpty = false)
    (hjson : w.jsonParse (interpolate w.supabase st.activeEnvId st.body) = none) :
    composeRequest w st = .error { message := utf16 "Invalid JSON Body", code := none } := by
  unfold composeRequest
  simp [hurl, hbody, hjson]

theorem composeRequest_headers {w : World} {st : AppState} {req : ProxyRequest}
    (h : composeRequest w st = .ok req) : req.headers = finalHeaders w st := by
  unfold composeRequest at h
  simp only at h
  split at h
  · cases h
  · split at h
    · cases h; rfl
    · split at h
      · cases h
      · cases h; rfl

/-- C11: when the body of the draft is empty or whitespace-only and the
resolved URL parses, every request that `handleSend` hands to the proxy has
the empty object as its body and the method of the draft, whatever that
method is; and once the two guards of `handleSend` pass (the draft URL is not
blank, the browser is online) exactly one such request is handed to the
proxy. -/
theorem handleSend_blank_body (w : World) (st : AppState)
    (hurl : w.urlParses (interpolate w.supabase st.activeEnvId st.url) = true)
    (hbody : (trim st.body).isEmpty = true) :
    (∀ req ∈ proxyRequests (handleSend w st).2,
        req.body = JSValue.object [] ∧ req.method = st.method)
      ∧ (w.onLine = true → (trim st.url).isEmpty = false →
          ∃ req, proxyRequests (handleSend w st).2 = [req]
            ∧ req.body = JSValue.object [] ∧ req.method = st.method) := by
  rw [proxyRequests_handleSend, composeRequest_of_blank_body hurl hbody]
  constructor
  · intro r hr
    split at hr
    · cases hr
    · simp only [List.mem_singleton] at hr
      rw [hr]; exact ⟨rfl, rfl⟩
  · intro hon hblank
    refine ⟨{ url := interpolate w.supabase st.activeEnvId st.url, method := st.method,
              headers := finalHeaders w st, body := .object [],
              user_id := st.user.map (fun u => u.id) }, ?_, rfl, rfl⟩
    simp [hon, hblank]

theorem handleSend_blank_body_witness :
    ∃ req, proxyRequests
          (handleSend (demoWorld true) { demoState demoUrl with body := utf16 "  \n " }).2
        = [req]
      ∧ req.body = JSValue.object [] ∧ req.method = utf16 "GET" :=
  (handleSend_blank_body (demoWorld true) { demoState demoUrl with body := utf16 "  \n " }
    (by decide) (by decide)).2 (by decide) (by decide)

/-- C12, as stated, fails: offline, with a draft URL that parses and the body
`\x7bnot json`, which is not blank and does not parse, the error of
`handleSend` is the report `No Internet Connection`, not `Invalid JSON`. -/
theorem handleSend_offline_invalid_body :
    (demoWorld false).urlParses
        (interpolate (demoWorld false).supabase (some (utf16 "env1")) demoUrl) = true
      ∧ (trim (utf16 "\x7bnot json")).isEmpty = false
      ∧ (demoWorld false).jsonParse
          (interpolate (demoWorld false).supabase (some (utf16 "env1"))
            (utf16 "\x7bnot json")) = none
      ∧ (handleSend (demoWorld false)
            { demoState demoUrl with body := utf16 "\x7bnot json" }).1.error.map
          (fun e => e.title) = some (utf16 "No Internet Connection")
      ∧ utf16 "No Internet Connection" ≠ utf16 "Invalid JSON" :=
  ⟨by decide, by decide, rfl, by decide, by decide⟩

/-- C12, amended: when the resolved URL parses and the body is not blank and
its resolved text is not valid JSON, `handleSend` makes no call to the proxy;
and when the draft URL is not blank and the browser is online it sets the
error titled `Invalid JSON` with the status label `Client Error`. -/
theorem handleSend_invalid_body (w : World) (st : AppState)
    (hurl : w.urlParses (interpolate w.supabase st.activeEnvId st.url) = true)
    (hbody : (trim st.body).isEmpty = false)
    (hjson : w.jsonParse (interpolate w.supabase st.activeEnvId st.body) = none) :
    proxyRequests (handleSend w st).2 = []
      ∧ (w.onLine = true → (trim st.url).isEmpty = false →
          (handleSend w st).1.error
            = some {
                title := utf16 "Invalid JSON",
                message :=
                  utf16 "The request body contains invalid JSON. Please check your syntax.",
                status := ErrorStatus.label (utf16 "Client Error") }) := by
  constructor
  · rw [proxyRequests_handleSend, composeRequest_of_invalid_body hurl hbody hjson]
    split <;> rfl
  · intro hon hblank
    unfold handleSend
    simp only [hblank, hon, Bool.not_true, Bool.false_eq_true, if_false,
      composeRequest_of_invalid_body hurl hbody hjson]
    rfl

theorem handleSend_invalid_body_witness :
    proxyRequests
        (handleSend (demoWorld true) { demoState demoUrl with body := utf16 "\x7bnot json" }).2
      = []
      ∧ (handleSend (demoWorld true)
            { demoState demoUrl with body := utf16 "\x7bnot json" }).1.error
          = some {
              title := utf16 "Invalid JSON",
              message :=
                utf16 "The request body contains invalid JSON. Please check your syntax.",
              status := ErrorStatus.label (utf16 "Client Error") } := by
  obtain ⟨h1, h2⟩ :=
    handleSend_invalid_body (demoWorld true)
      { demoState demoUrl with body := utf16 "\x7bnot json" } (by decide) (by decide) rfl
  exact ⟨h1, h2 (by decide) (by decide)⟩

theorem mem_insertProperty {obj : List (JSString × JSString)} {key value : JSString}
    {p : JSString × JSString} (h : p ∈ insertProperty obj key value) :
    p ∈ obj ∨ p = (key, value) := by
  unfold insertProperty at h
  split at h
  · rename_i i _
    rcases List.mem_append.mp h with h | h
    · exact Or.inl ((List.takeWhile_sublist _).subset h)
    · rcases List.mem_cons.mp h with h | h
      · exact Or.inr h
      · exact Or.inl ((List.dropWhile_sublist _).subset h)
  · rcases List.mem_append.mp h with h | h
    · exact Or.inl h
    · exact Or.inr (List.mem_singleton.mp h)

theorem mem_setProperty {obj : List (JSString × JSString)} {key value : JSString}
    {p : JSString × JSString} (h : p ∈ setProperty obj key value) :
    p ∈ obj ∨ p = (key, value) := by
  unfold setProperty at h
  split at h
  · exact Or.inl h
  · split at h
    · obtain ⟨q, hq, rfl⟩ := List.mem_map.mp h
      split
      · exact Or.inr rfl
      · exact Or.inl hq
    · exact mem_insertProperty h

/-- Every entry of the header object comes from a row with a non-empty raw
key: its key and value are the resolved key and value of that row. -/
theorem mem_finalHeaders {w : World} {st : AppState} {p : JSString × JSString}
    (h : p ∈ finalHeaders w st) :
    ∃ row ∈ st.headers, row.key ≠ [] ∧
      p = (interpolate w.supabase st.activeEnvId row.key,
        interpolate w.supabase st.activeEnvId row.value) := by
  have key : ∀ (rows : List HeaderRow) (acc : List (JSString × JSString)),
      p ∈ rows.foldl
          (fun acc h =>
            if h.key.isEmpty then acc
            else setProperty acc (interpolate w.supabase st.activeEnvId h.key)
              (interpolate w.supabase st.activeEnvId h.value))
          acc →
        p ∈ acc ∨ ∃ row ∈ rows, row.key ≠ [] ∧
          p = (interpolate w.supabase st.activeEnvId row.key,
            interpolate w.supabase st.activeEnvId row.value) := by
    intro rows
    induction rows with
    | nil => intro acc h; exact Or.inl h
    | cons r rows ih =>
      intro acc h
      rw [List.foldl_cons] at h
      rcases ih _ h with h1 | ⟨row, hrow, hne, hp⟩
      · split at h1
        · exact Or.inl h1
        · rename_i hkey
          rcases mem_setProperty h1 with h2 | h2
          · exact Or.inl h2
          · refine Or.inr ⟨r, List.mem_cons_self _ _, ?_, h2⟩
            intro he
            exact hkey (by rw [he]; rfl)
      · exact Or.inr ⟨row, List.mem_cons_of_mem _ hrow, hne, hp⟩
  rcases key st.headers [] h with h | h
  · cases h
  · exact h

theorem mem_proxyRequests_handleSend {w : World} {st : AppState} {req : ProxyRequest}
    (h : req ∈ proxyRequests (handleSend w st).2) : composeRequest w st = .ok req := by
  rw [proxyRequests_handleSend] at h
  split at h
  · cases h
  · split at h
    · rename_i r hr
      rw [List.mem_singleton.mp h, hr]
    · cases h

/-- C13, as stated, fails: with the enabled binding of `e` to the empty
string, the header row whose key is the placeholder of `e` gives the request
handed to the proxy a header whose key is the empty string. -/
theorem handleSend_empty_resolved_header_key :
    (proxyRequests
        (handleSend
          { demoWorld true with supabase := storeOf [{ key := utf16 "e", value := [] }] }
          (headerState [{ key := placeholder (utf16 "e"), value := utf16 "v" }])).2).map
      (fun req => req.headers) = [[([], utf16 "v")]] := by
  decide

/-- C13, amended: every entry of the header map of a request handed to the
proxy is the resolved key and value of a header row whose raw key is not
empty (a row with an empty raw key gives no entry); so the map has no entry
with the empty key when no non-empty raw key resolves to the empty string. -/
theorem handleSend_header_keys (w : World) (st : AppState) :
    (∀ req ∈ proxyRequests (handleSend w st).2, ∀ p ∈ req.headers,
        ∃ row ∈ st.headers, row.key ≠ [] ∧
          p = (interpolate w.supabase st.activeEnvId row.key,
            interpolate w.supabase st.activeEnvId row.value))
      ∧ ((∀ row ∈ st.headers, row.key ≠ [] →
            interpolate w.supabase st.activeEnvId row.key ≠ []) →
          ∀ req ∈ proxyRequests (handleSend w st).2, ∀ p ∈ req.headers, p.1 ≠ []) := by
  have h1 : ∀ req ∈ proxyRequests (handleSend w st).2, ∀ p ∈ req.headers,
      ∃ row ∈ st.headers, row.key ≠ [] ∧
        p = (interpolate w.supabase st.activeEnvId row.key,
          interpolate w.supabase st.activeEnvId row.value) := by
    intro req hreq p hp
    rw [composeRequest_headers (mem_proxyRequests_handleSend hreq)] at hp
    exact mem_finalHeaders hp
  refine ⟨h1, fun hres req hreq p hp => ?_⟩
  obtain ⟨row, hrow, hne, rfl⟩ := h1 req hreq p hp
  exact hres row hrow hne

theorem handleSend_header_keys_witness :
    (proxyRequests (handleSend (demoWorld true) (headerState demoHeaderRows)).2).map
        (fun req => req.headers)
        = [[(utf16 "Accept", utf16 "*/*"), (utf16 "X-Path", utf16 "v1/users")]]
      ∧ ∀ req ∈ proxyRequests (handleSend (demoWorld true) (headerState demoHeaderRows)).2,
          ∀ p ∈ req.headers, p.1 ≠ [] :=
  ⟨by decide,
    (handleSend_header_keys (demoWorld true) (headerState demoHeaderRows)).2 (by decide)⟩

theorem lookup_map_update (key value k : JSString) :
    ∀ obj : List (JSString × JSString),
      (obj.map (fun p => if p.1 = key then (key, value) else p)).lookup k
        = if k = key ∧ obj.any (fun p => decide (p.1 = key)) = true then some value
          else obj.lookup k := by
  intro obj
  induction obj with
  | nil => simp
  | cons p obj ih =>
    obtain ⟨a, b⟩ := p
    by_cases ha : a = key
    · subst ha
      by_cases hk : k = a
      · subst hk; simp [List.lookup_cons]
      · have hbeq : (k == a) = false := by simpa using hk
        simp only [List.map_cons, if_true, List.lookup_cons, hbeq, ih, hk, false_and,
          if_false]
    · by_cases hk : k = a
      · subst hk
        simp [List.lookup_cons, ha]
      · have hbeq : (k == a) = false := by simpa using hk
        simp only [List.map_cons, ha, if_false, List.lookup_cons, hbeq, ih, List.any_cons,
          decide_False, Bool.false_or]

theorem insertProperty_lookup (obj : List (JSString × JSString)) (key value k : JSString)
    (hnew : obj.lookup key = none) :
    (insertProperty obj key value).lookup k
      = if k = key then some value else obj.lookup k := by
  unfold insertProperty
  split
  · rename_i i _
    have hsplit := List.takeWhile_append_dropWhile (enumeratedBefore i) obj
    by_cases hkk : k = key
    · subst hkk
      have hfirst : (obj.takeWhile (enumeratedBefore i)).lookup k = none := by
        rw [List.lookup_eq_none_iff] at hnew ⊢
        intro p hp
        exact hnew p (((List.takeWhile_sublist _).subset hp))
      simp [List.lookup_append, hfirst, List.lookup_cons]
    · have hbeq : (k == key) = false := by simpa using hkk
      rw [if_neg hkk, List.lookup_append, List.lookup_cons, hbeq, ← List.lookup_append,
        hsplit]
  · rw [List.lookup_append]
    by_cases hkk : k = key
    · subst hkk
      simp [hnew, List.lookup_cons]
    · have hbeq : (k == key) = false := by simpa using hkk
      simp [List.lookup_cons, hbeq, hkk]

/-- The enumeration order of the header object: the key `b` set before the
keys `10` and `9` comes after them, and `9` comes before `10`; a key that is
not a canonical index (`01`) keeps its place of creation. -/
theorem setProperty_enumeration_order :
    setProperty (setProperty (setProperty (setProperty [] (utf16 "b") (utf16 "x"))
        (utf16 "10") (utf16 "y")) (utf16 "01") (utf16 "z")) (utf16 "9") (utf16 "w")
      = [ (utf16 "9", utf16 "w"), (utf16 "10", utf16 "y"), (utf16 "b", utf16 "x"),
          (utf16 "01", utf16 "z") ] := by
  decide

theorem setProperty_lookup (obj : List (JSString × JSString)) (key value k : JSString)
    (hk : k ≠ utf16 "__proto__") :
    (setProperty obj key value).lookup k = if k = key then some value else obj.lookup k := by
  unfold setProperty
  split
  · rename_i hkey
    rw [if_neg (fun e => hk (e.trans hkey))]
  · split
    · rename_i hany
      rw [lookup_map_update]
      by_cases hkk : k = key
      · simp [hkk, hany]
      · simp [hkk]
    · rename_i hany
      have hnone : obj.lookup key = none := by
        rw [List.lookup_eq_none_iff]
        intro p hp
        have : ¬ p.1 = key := by
          intro e
          exact hany (List.any_eq_true.mpr ⟨p, hp, by simpa using e⟩)
        rw [bne_iff_ne]
        exact fun e => this e.symm
      exact insertProperty_lookup obj key value k hnone

theorem finalHeaders_eq_foldl (w : World) (st : AppState) :
    finalHeaders w st
      = (resolvedRows w st).foldl (fun acc p => setProperty acc p.1 p.2) [] := by
  unfold finalHeaders resolvedRows
  generalize ([] : List (JSString × JSString)) = acc
  induction st.headers generalizing acc with
  | nil => rfl
  | cons r rows ih =>
    rw [List.foldl_cons]
    by_cases hr : r.key.isEmpty = true
    · simp only [hr, if_true, List.filter_cons, Bool.not_true, Bool.false_eq_true, if_false]
      exact ih acc
    · have hr2 : r.key.isEmpty = false := by simpa using hr
      simp only [hr2, Bool.false_eq_true, if_false, List.filter_cons, Bool.not_false, if_true,
        List.map_cons, List.foldl_cons]
      exact ih _

theorem foldl_setProperty_lookup (k : JSString) (hk : k ≠ utf16 "__proto__") :
    ∀ (pairs acc : List (JSString × JSString)),
      (pairs.foldl (fun acc p => setProperty acc p.1 p.2) acc).lookup k
        = (pairs.reverse.lookup k).or (acc.lookup k) := by
  intro pairs
  induction pairs with
  | nil => intro acc; simp
  | cons p pairs ih =>
    intro acc
    rw [List.foldl_cons, ih, setProperty_lookup _ _ _ _ hk, List.reverse_cons,
      List.lookup_append]
    obtain ⟨a, b⟩ := p
    by_cases hka : k = a
    · subst hka
      cases pairs.reverse.lookup k <;> simp [List.lookup_cons]
    · have hbeq : (k == a) = false := by simpa using hka
      cases pairs.reverse.lookup k <;> simp [List.lookup_cons, hbeq, hka]

/-- For every key other than `__proto__`, the header object holds the
resolved value of the last row (with a non-empty raw key) whose resolved key
is that key, and nothing when there is no such row. -/
theorem finalHeaders_lookup (w : World) (st : AppState) (k : JSString)
    (hk : k ≠ utf16 "__proto__") :
    (finalHeaders w st).lookup k = (resolvedRows w st).reverse.lookup k := by
  rw [finalHeaders_eq_foldl, foldl_setProperty_lookup k hk]
  simp

/-- C14: with the single header row of key `__proto__` and value `x`, the
header object of the request handed to the proxy is empty: the assignment
`finalHeaders[key] = value` on a plain object does not create a property for
that key, so the map lacks the resolved key of a row with a non-empty raw
key. -/
theorem handleSend_proto_header_dropped :
    resolvedRows (demoWorld true)
        (headerState [{ key := utf16 "__proto__", value := utf16 "x" }])
        = [(utf16 "__proto__", utf16 "x")]
      ∧ (proxyRequests
          (handleSend (demoWorld true)
            (headerState [{ key := utf16 "__proto__", value := utf16 "x" }])).2).map
        (fun req => req.headers) = [[]] := by
  decide

/-! ## Claims on the classification of the reply -/

/-- The state after `handleSend` when the proxy replied: the outcome of
`processReply` on the cleared state, or the report of the `catch` block when
it throws. -/
theorem handleSend_of_proxyReply {w : World} {st : AppState} {status : Nat} {data : JSValue}
    (h : proxyReply w st = some (status, data)) :
    (handleSend w st).1
      = match processReply { st with loading := true, error := none, response := none }
          status data with
        | .error err =>
          { st with loading := false, error := some (errorPayload err), response := none }
        | .ok (st2, _) => { st2 with loading := false } := by
  unfold proxyReply at h
  unfold handleSend
  by_cases hblank : (trim st.url).isEmpty = true
  · simp [hblank] at h
  · by_cases hon : w.onLine = true
    · simp only [hblank, hon, Bool.not_true, Bool.false_eq_true, if_false, Bool.or_self] at h ⊢
      cases hreq : composeRequest w st with
      | error err => simp [hreq] at h
      | ok req =>
        simp only [hreq] at h ⊢
        cases hpost : w.post req with
        | rejected err => simp [hpost] at h
        | resolved status2 data2 =>
          simp only [hpost, Option.some.injEq, Prod.mk.injEq] at h ⊢
          obtain ⟨rfl, rfl⟩ := h
          cases hrep : processReply
              { st with loading := true, error := none, response := none } status2 data2 with
          | error err => rfl
          | ok res => rfl
    · have hoff : w.onLine = false := by simpa using hon
      simp [hblank, hoff] at h

theorem processReply_dns {st : AppState} {data : JSValue} (h : dnsMarker data = true) :
    processReply st 500 data
      = .ok ({ st with
                error := some {
                  title := utf16 "Address Not Found",
                  message :=
                    utf16 "Could not resolve the domain name. Please check the URL spelling.",
                  status := .label (utf16 "DNS Error") },
                loading := false }, []) := by
  unfold processReply
  simp [h]

theorem processReply_http_error {st : AppState} {status : Nat} {data resData : JSValue}
    (hge : 400 ≤ status) (hdns : status = 500 → dnsMarker data = false)
    (hdata : data.getField (utf16 "data") = .ok resData) :
    processReply st status data
      = .ok ({ st with
                error := some {
                  title := utf16 "Error " ++ natToString status ++ utf16 ": "
                    ++ (STATUS_TEXT status).getD (utf16 "Error"),
                  message := messageToShow resData,
                  status := .code status } },
          if st.user.isSome then [Effect.fetchHistory] else []) := by
  unfold processReply
  have hcond : (decide (status = 500) && dnsMarker data) = false := by
    by_cases h5 : status = 500
    · simp [hdns h5]
    · simp [h5]
  simp [hcond, hge, hdata]

theorem processReply_success {st : AppState} {status : Nat} {data s d t z : JSValue}
    (hlt : status < 400) (hs : data.getField (utf16 "status") = .ok s)
    (hd : data.getField (utf16 "data") = .ok d) (ht : data.getField (utf16 "time") = .ok t)
    (hz : data.getField (utf16 "size") = .ok z) :
    processReply st status data
      = .ok ({ st with response := some { status := s, data := d, time := t, size := z } },
          if st.user.isSome then [Effect.fetchHistory] else []) := by
  unfold processReply
  have h5 : ¬ status = 500 := by omega
  have hge : ¬ 400 ≤ status := by omega
  simp [h5, hge, hs, hd, ht, hz]

theorem getField_ok_of_defined {data : JSValue} (hnull : data ≠ .null)
    (hundef : data ≠ .undefined) (name : JSString) : ∃ v, data.getField name = .ok v := by
  cases data with
  | undefined => exact absurd rfl hundef
  | null => exact absurd rfl hnull
  | bool b => exact ⟨_, rfl⟩
  | number n => exact ⟨_, rfl⟩
  | string s => exact ⟨_, rfl⟩
  | array items => exact ⟨_, rfl⟩
  | object fields => exact ⟨_, rfl⟩

theorem getField_error_of_null {data : JSValue} (h : data = .null ∨ data = .undefined)
    (name : JSString) : ∃ err, data.getField name = .error err := by
  rcases h with rfl | rfl <;> exact ⟨_, rfl⟩

theorem processReply_response {st st2 : AppState} {status : Nat} {data : JSValue}
    {effects : List Effect} {r : Response} (hst : st.response = none)
    (h : processReply st status data = .ok (st2, effects)) (hr : st2.response = some r) :
    status < 400 ∧ data.getField (utf16 "status") = .ok r.status
      ∧ data.getField (utf16 "data") = .ok r.data
      ∧ data.getField (utf16 "time") = .ok r.time
      ∧ data.getField (utf16 "size") = .ok r.size := by
  unfold processReply at h
  split at h
  · cases h
    rw [show ({ st with
        error := some {
          title := utf16 "Address Not Found",
          message :=
            utf16 "Could not resolve the domain name. Please check the URL spelling.",
          status := .label (utf16 "DNS Error") },
        loading := false } : AppState).response = st.response from rfl, hst] at hr
    cases hr
  · simp only at h
    split at h
    · split at h
      · cases h
      · cases h
        simp only [hst] at hr
        cases hr
    · rename_i hge
      split at h
      · rename_i s d t z hs hd ht hz
        cases h
        simp only [Option.some.injEq] at hr
        subst hr
        exact ⟨by omega, hs, hd, ht, hz⟩
      all_goals cases h

/-- C15: when the proxy replied and `handleSend` set a Response, the reply
was below status 400 and the `status`, `data`, `time` and `size` of the
Response are the properties of those names read from the data of the reply,
unchanged; and every reply below status 400 whose data is not null or
undefined does set a Response, and no error. -/
theorem handleSend_success_verbatim (w : World) (st : AppState) (status : Nat)
    (data : JSValue) (hreply : proxyReply w st = some (status, data)) :
    (∀ r, (handleSend w st).1.response = some r →
        status < 400 ∧ data.getField (utf16 "status") = .ok r.status
          ∧ data.getField (utf16 "data") = .ok r.data
          ∧ data.getField (utf16 "time") = .ok r.time
          ∧ data.getField (utf16 "size") = .ok r.size)
      ∧ (status < 400 → data ≠ JSValue.null → data ≠ JSValue.undefined →
          ∃ r, (handleSend w st).1.response = some r ∧ (handleSend w st).1.error = none) := by
  rw [handleSend_of_proxyReply hreply]
  constructor
  · intro r hr
    cases hrep : processReply { st with loading := true, error := none, response := none }
        status data with
    | error err => simp [hrep] at hr
    | ok res =>
      obtain ⟨st2, effects⟩ := res
      simp only [hrep] at hr
      exact processReply_response rfl hrep hr
  · intro hlt hnull hundef
    obtain ⟨s, hs⟩ := getField_ok_of_defined hnull hundef (utf16 "status")
    obtain ⟨d, hd⟩ := getField_ok_of_defined hnull hundef (utf16 "data")
    obtain ⟨t, ht⟩ := getField_ok_of_defined hnull hundef (utf16 "time")
    obtain ⟨z, hz⟩ := getField_ok_of_defined hnull hundef (utf16 "size")
    rw [processReply_success hlt hs hd ht hz]
    exact ⟨_, rfl, rfl⟩

theorem handleSend_success_verbatim_witness :
    ∃ r, (handleSend (replyWorld 200 demoEnvelope) (demoState demoUrl)).1.response = some r
      ∧ (handleSend (replyWorld 200 demoEnvelope) (demoState demoUrl)).1.error = none
      ∧ r.status = JSValue.number 200 ∧ r.data = JSValue.string (utf16 "hi")
      ∧ r.time = JSValue.string (utf16 "12ms") ∧ r.size = JSValue.string (utf16 "2B") := by
  obtain ⟨h1, h2⟩ :=
    handleSend_success_verbatim (replyWorld 200 demoEnvelope) (demoState demoUrl) 200
      demoEnvelope rfl
  obtain ⟨r, hr, he⟩ := h2 (by decide) (fun h => nomatch h) (fun h => nomatch h)
  obtain ⟨_, hs, hd, ht, hz⟩ := h1 r hr
  refine ⟨r, hr, he, ?_, ?_, ?_, ?_⟩
  · exact (Except.ok.inj hs).symm
  · exact (Except.ok.inj hd).symm
  · exact (Except.ok.inj ht).symm
  · exact (Except.ok.inj hz).symm

/-- C16: when the proxy replied with an envelope object, `handleSend` sets an
error exactly when the status is at least 400 and sets a Response exactly
when the status is below 400 (with or without the DNS marker, which needs
status 500); so status 399 gives a Response and status 400 an error. -/
theorem handleSend_status_boundary (w : World) (st : AppState) (status : Nat)
    (fields : List (JSString × JSValue))
    (hreply : proxyReply w st = some (status, JSValue.object fields)) :
    ((handleSend w st).1.error.isSome = true ↔ 400 ≤ status)
      ∧ ((handleSend w st).1.response.isSome = true ↔ status < 400) := by
  rw [handleSend_of_proxyReply hreply]
  by_cases hge : 400 ≤ status
  · by_cases hdns : status = 500 ∧ dnsMarker (JSValue.object fields) = true
    · obtain ⟨rfl, hm⟩ := hdns
      rw [processReply_dns hm]
      simp
    · have hdns2 : status = 500 → dnsMarker (JSValue.object fields) = false := by
        intro h5
        cases hm : dnsMarker (JSValue.object fields) with
        | false => rfl
        | true => exact absurd ⟨h5, hm⟩ hdns
      rw [processReply_http_error hge hdns2
        (show (JSValue.object fields).getField (utf16 "data") = .ok _ from rfl)]
      simp only [Option.isSome_some, true_iff, Option.isSome_none, Bool.false_eq_true,
        false_iff, not_lt]
      exact ⟨hge, hge⟩
  · have hlt : status < 400 := by omega
    rw [processReply_success hlt
      (show (JSValue.object fields).getField (utf16 "status") = .ok _ from rfl)
      (show (JSValue.object fields).getField (utf16 "data") = .ok _ from rfl)
      (show (JSValue.object fields).getField (utf16 "time") = .ok _ from rfl)
      (show (JSValue.object fields).getField (utf16 "size") = .ok _ from rfl)]
    simp only [Option.isSome_none, Bool.false_eq_true, false_iff, Option.isSome_some,
      true_iff]
    exact ⟨hge, hlt⟩

theorem handleSend_status_boundary_witness :
    (handleSend (replyWorld 399 demoEnvelope) (demoState demoUrl)).1.response.isSome = true
      ∧ (handleSend (replyWorld 399 demoEnvelope) (demoState demoUrl)).1.error.isSome = false
      ∧ (handleSend (replyWorld 400 demoEnvelope) (demoState demoUrl)).1.error.isSome = true
      ∧ (handleSend (replyWorld 400 demoEnvelope) (demoState demoUrl)).1.response.isSome
          = false := by
  have h399 := handleSend_status_boundary (replyWorld 399 demoEnvelope) (demoState demoUrl)
    399 _ rfl
  have h400 := handleSend_status_boundary (replyWorld 400 demoEnvelope) (demoState demoUrl)
    400 _ rfl
  refine ⟨h399.2.mpr (by decide), ?_, h400.1.mpr (by decide), ?_⟩
  · cases h : (handleSend (replyWorld 399 demoEnvelope) (demoState demoUrl)).1.error.isSome
    · rfl
    · exact absurd (h399.1.mp h) (by decide)
  · cases h : (handleSend (replyWorld 400 demoEnvelope) (demoState demoUrl)).1.response.isSome
    · rfl
    · exact absurd (h400.2.mp h) (by decide)

/-! ## Facts about `JSON.stringify` and `messageToShow` -/

theorem digitChar_toNat (m : Nat) (h : m < 10) :
    48 ≤ (Nat.digitChar m).toNat ∧ (Nat.digitChar m).toNat ≤ 57 := by
  interval_cases m <;> decide

theorem toDigitsCore_digits :
    ∀ (fuel n : Nat) (acc : List Char), (∀ c ∈ acc, 48 ≤ c.toNat ∧ c.toNat ≤ 57) →
      ∀ c ∈ Nat.toDigitsCore 10 fuel n acc, 48 ≤ c.toNat ∧ c.toNat ≤ 57 := by
  intro fuel
  induction fuel with
  | zero => intro n acc h c hc; exact h c (by simpa [Nat.toDigitsCore] using hc)
  | succ fuel ih =>
    intro n acc h c hc
    have hcons : ∀ c ∈ Nat.digitChar (n % 10) :: acc, 48 ≤ c.toNat ∧ c.toNat ≤ 57 := by
      intro c hc
      rcases List.mem_cons.mp hc with rfl | hc
      · exact digitChar_toNat _ (Nat.mod_lt _ (by decide))
      · exact h c hc
    simp only [Nat.toDigitsCore] at hc
    split at hc
    · exact hcons c hc
    · exact ih _ _ hcons c hc

theorem natToString_units (n : Nat) : ∀ c ∈ natToString n, 48 ≤ c ∧ c ≤ 57 := by
  intro c hc
  unfold natToString at hc
  obtain ⟨ch, hch, rfl⟩ := List.mem_map.mp hc
  exact toDigitsCore_digits _ _ [] (fun _ h => by cases h) ch hch

theorem natToString_cons (n : Nat) :
    ∃ c rest, natToString n = c :: rest ∧ 48 ≤ c ∧ c ≤ 57 := by
  have hunits := natToString_units n
  have hne : natToString n ≠ [] := by
    unfold natToString Nat.toDigits Nat.toDigitsCore
    simp only [ne_eq, List.map_eq_nil_iff]
    split
    · simp
    · generalize Nat.digitChar (n % 10) = d
      generalize n / 10 = m
      have : ∀ (fuel m : Nat) (ds : List Char), ds ≠ [] →
          Nat.toDigitsCore 10 fuel m ds ≠ [] := by
        intro fuel
        induction fuel with
        | zero => intro m ds h; simpa [Nat.toDigitsCore] using h
        | succ fuel ih =>
          intro m ds h
          unfold Nat.toDigitsCore
          simp only
          split
          · simp
          · exact ih _ _ (by simp)
      exact this _ _ _ (by simp)
  cases hstr : natToString n with
  | nil => exact absurd hstr hne
  | cons c rest => exact ⟨c, rest, rfl, hunits c (by rw [hstr]; simp)⟩

theorem formatDecimal_head (c : Nat) (rest : JSString) (n : Int) :
    ∃ tail, formatDecimal (c :: rest) n = c :: tail
      ∨ formatDecimal (c :: rest) n = 48 :: tail := by
  unfold formatDecimal
  simp only
  split
  · split
    · exact ⟨_, Or.inl (List.cons_append _ _ _)⟩
    · split
      · rename_i hpos
        obtain ⟨m, hm⟩ : ∃ m, n.toNat = m + 1 := ⟨n.toNat - 1, by omega⟩
        rw [hm]
        exact ⟨List.take m rest ++ 46 :: List.drop (m + 1) (c :: rest), Or.inl rfl⟩
      · exact ⟨_, Or.inr rfl⟩
  · cases rest with
    | nil => exact ⟨_, Or.inl rfl⟩
    | cons d rest => exact ⟨_, Or.inl rfl⟩

/-- The text of a Number starts with a digit, with `-`, or with the `I` of
`Infinity`. -/
theorem numberToString_head (x : JSNumber) :
    ∃ c rest, numberToString x = c :: rest ∧ (c = 45 ∨ c = 73 ∨ (48 ≤ c ∧ c ≤ 57)) := by
  have hmag : ∃ c rest, x.magnitude.toString = c :: rest
      ∧ (c = 45 ∨ c = 73 ∨ (48 ≤ c ∧ c ≤ 57)) := by
    cases x.magnitude with
    | infinite => exact ⟨73, _, rfl, Or.inr (Or.inl rfl)⟩
    | finite f q =>
      show ∃ c rest,
        (if f = 0 then utf16 "0"
          else formatDecimal (natToString (shortestDigits f q).1) (shortestDigits f q).2)
            = c :: rest ∧ (c = 45 ∨ c = 73 ∨ (48 ≤ c ∧ c ≤ 57))
      split
      · exact ⟨48, [], rfl, Or.inr (Or.inr (by decide))⟩
      · obtain ⟨c, rest, hstr, hc⟩ := natToString_cons (shortestDigits f q).1
        rw [hstr]
        obtain ⟨tail, h | h⟩ := formatDecimal_head c rest (shortestDigits f q).2
        · exact ⟨c, tail, h, Or.inr (Or.inr hc)⟩
        · exact ⟨48, tail, h, Or.inr (Or.inr (by decide))⟩
  unfold numberToString
  split
  · exact ⟨45, _, rfl, Or.inl rfl⟩
  · exact hmag

theorem numberToString_of_isZero {x : JSNumber} (h : x.isZero = true) :
    x.isFinite = true ∧ numberToString x = utf16 "0" := by
  have hmag : x.magnitude = Binary64.finite 0 (-1074) := by
    simpa [JSNumber.isZero] using h
  refine ⟨by simp [JSNumber.isFinite, hmag], ?_⟩
  unfold numberToString JSNumber.isNegative
  simp only [h, Bool.not_true, Bool.and_false, Bool.false_eq_true, if_false, hmag]
  rfl

/-- The text of notable Numbers: integers, fractions, the switch to the
exponent form at `1e21` and at `1e-7`, a value above `2^53`, a literal that
is not a binary64 value, the least positive value, the infinities and the
zeros. -/
theorem numberToString_examples :
    numberToString 0 = utf16 "0" ∧ numberToString 200 = utf16 "200"
      ∧ numberToString { mantissa := -15, exponent := -1 } = utf16 "-1.5"
      ∧ numberToString { mantissa := 1, exponent := -1 } = utf16 "0.1"
      ∧ numberToString { mantissa := 999, exponent := -2 } = utf16 "9.99"
      ∧ numberToString { mantissa := 1, exponent := 20 } = utf16 "100000000000000000000"
      ∧ numberToString { mantissa := 1, exponent := 21 } = utf16 "1e+21"
      ∧ numberToString { mantissa := 1, exponent := 23 } = utf16 "1e+23"
      ∧ numberToString { mantissa := 1, exponent := -6 } = utf16 "0.000001"
      ∧ numberToString { mantissa := 1, exponent := -7 } = utf16 "1e-7"
      ∧ numberToString 590295810358705651712 = utf16 "590295810358705700000"
      ∧ numberToString 9007199254740993 = utf16 "9007199254740992"
      ∧ numberToString { mantissa := 17976931348623157, exponent := 292 }
          = utf16 "1.7976931348623157e+308"
      ∧ numberToString { mantissa := 5, exponent := -324 } = utf16 "5e-324"
      ∧ numberToString { mantissa := 1, exponent := 400 } = utf16 "Infinity"
      ∧ numberToString { mantissa := -1, exponent := 400 } = utf16 "-Infinity"
      ∧ numberToString { mantissa := -1, exponent := -400 } = utf16 "0"
      ∧ JSON.stringify (JSValue.number { mantissa := 1, exponent := 400 })
          = some (utf16 "null") := by
  decide!

theorem stringify_number_head (x : JSNumber) :
    ∃ c rest, JSON.stringify (JSValue.number x) = some (c :: rest) ∧ c ≠ 34 ∧ c ≠ 123 := by
  simp only [JSON.stringify, JSON.serializeProperty]
  split
  · obtain ⟨c, rest, hstr, hc⟩ := numberToString_head x
    exact ⟨c, rest, by rw [hstr], by omega, by omega⟩
  · exact ⟨110, _, rfl, by decide, by decide⟩

theorem quoteUnit_ne_nil (c : Nat) : quoteUnit c ≠ [] := by
  unfold quoteUnit
  repeat' split
  all_goals simp [unicodeEscape]

theorem quoteUnits_ne_nil {s : JSString} (h : s ≠ []) : quoteUnits s ≠ [] := by
  match s, h with
  | [c], _ => exact quoteUnit_ne_nil c
  | c :: d :: rest, _ =>
    unfold quoteUnits
    split
    · simp
    · simp [quoteUnit_ne_nil c]

theorem serializeProperty_isSome {gap indent : JSString} {v : JSValue}
    (h : v ≠ JSValue.undefined) : ∃ str, JSON.serializeProperty gap indent v = some str := by
  cases v with
  | undefined => exact absurd rfl h
  | null => simp [JSON.serializeProperty]
  | bool b => simp [JSON.serializeProperty]
  | number n => simp [JSON.serializeProperty]
  | string s => simp [JSON.serializeProperty]
  | array items => simp [JSON.serializeProperty]
  | object fields => simp [JSON.serializeProperty]

theorem serializeFields_head (gap indent : JSString) :
    ∀ fields : List (JSString × JSValue), (∃ p ∈ fields, p.2 ≠ JSValue.undefined) →
      ∃ rest tail, JSON.serializeFields gap indent fields = (34 :: rest) :: tail := by
  intro fields
  induction fields with
  | nil => rintro ⟨p, hp, _⟩; cases hp
  | cons f fields ih =>
    obtain ⟨k, v⟩ := f
    intro h
    by_cases hv : v = JSValue.undefined
    · subst hv
      have h2 : ∃ p ∈ fields, p.2 ≠ JSValue.undefined := by
        obtain ⟨p, hp, hne⟩ := h
        rcases List.mem_cons.mp hp with rfl | hp
        · exact absurd rfl hne
        · exact ⟨p, hp, hne⟩
      simpa [JSON.serializeFields, JSON.serializeProperty] using ih h2
    · obtain ⟨str, hstr⟩ := @serializeProperty_isSome gap indent v hv
      refine ⟨quoteUnits k ++ 34 :: 58 :: ((if gap.isEmpty then [] else [32]) ++ str),
        JSON.serializeFields gap indent fields, ?_⟩
      simp [JSON.serializeFields, hstr, quoteJSONString]

theorem wrapParts_head (opening closing : Nat) (gap stepback : JSString)
    (parts : List JSString) : ∃ tail, wrapParts opening closing gap stepback parts
      = opening :: tail := by
  unfold wrapParts
  split
  · exact ⟨_, rfl⟩
  · split
    · exact ⟨_, rfl⟩
    · exact ⟨_, rfl⟩

theorem joinWith_head (sep : JSString) (c : Nat) (rest : JSString) (tail : List JSString) :
    ∃ more, joinWith sep ((c :: rest) :: tail) = c :: more := by
  cases tail with
  | nil => exact ⟨_, rfl⟩
  | cons y tail => exact ⟨rest ++ (sep ++ joinWith sep (y :: tail)), by simp [joinWith]⟩

theorem stringify_array (items : List JSValue) :
    ∃ tail, JSON.stringify (JSValue.array items) = some (91 :: tail) := by
  obtain ⟨tail, h⟩ := wrapParts_head 91 93 [] [] (JSON.serializeElements [] [] items)
  exact ⟨tail, by simp [JSON.stringify, JSON.serializeProperty, h]⟩

theorem stringifyIndented_isSome (resData : JSValue) (h : resData ≠ JSValue.undefined) :
    ∃ str, JSON.stringifyIndented resData = some str :=
  serializeProperty_isSome h

theorem stringify_object {fields : List (JSString × JSValue)}
    (h : ∃ p ∈ fields, p.2 ≠ JSValue.undefined) :
    ∃ tail, JSON.stringify (JSValue.object fields) = some (123 :: 34 :: tail) := by
  obtain ⟨rest, more, hparts⟩ := serializeFields_head [] [] fields h
  obtain ⟨joined, hjoin⟩ := joinWith_head [44] 34 rest more
  refine ⟨joined ++ [125], ?_⟩
  simp [JSON.stringify, JSON.serializeProperty, hparts, wrapParts, hjoin]

theorem messageToShow_array (items : List JSValue) :
    some (messageToShow (JSValue.array items))
      = JSON.stringifyIndented (JSValue.array items) := by
  obtain ⟨tail, h⟩ := stringify_array items
  obtain ⟨str, hstr⟩ := stringifyIndented_isSome (JSValue.array items) (fun e => nomatch e)
  unfold messageToShow
  simp [h, hstr, JSValue.truthy, LBRACE]

theorem messageToShow_object {fields : List (JSString × JSValue)}
    (hf : ∃ p ∈ fields, p.2 ≠ JSValue.undefined) :
    some (messageToShow (JSValue.object fields))
      = JSON.stringifyIndented (JSValue.object fields) := by
  obtain ⟨tail, h⟩ := stringify_object hf
  obtain ⟨str, hstr⟩ := stringifyIndented_isSome (JSValue.object fields) (fun e => nomatch e)
  unfold messageToShow
  simp [h, hstr, JSValue.truthy, LBRACE, RBRACE]

theorem messageToShow_string {s : JSString} (h : s ≠ []) :
    messageToShow (JSValue.string s) = s := by
  have hq := quoteUnits_ne_nil h
  have hne : s.isEmpty = false := by
    cases s with
    | nil => exact absurd rfl h
    | cons _ _ => rfl
  have h1 : JSON.stringify (JSValue.string s) ≠ some [34, 34] := by
    simp only [JSON.stringify, JSON.serializeProperty, quoteJSONString, ne_eq,
      Option.some.injEq, List.cons.injEq, true_and]
    intro e
    cases hqs : quoteUnits s with
    | nil => exact hq hqs
    | cons a b => rw [hqs] at e; simp at e
  have h2 : JSON.stringify (JSValue.string s) ≠ some [LBRACE, RBRACE] := by
    simp [JSON.stringify, JSON.serializeProperty, quoteJSONString, LBRACE]
  unfold messageToShow
  simp [h1, h2, JSValue.truthy, hne, JSValue.toStringPrimitive]

theorem messageToShow_number {x : JSNumber} (h : x.isZero = false) :
    messageToShow (JSValue.number x) = numberToString x := by
  obtain ⟨c, rest, hstr, h34, h123⟩ := stringify_number_head x
  have h1 : JSON.stringify (JSValue.number x) ≠ some [34, 34] := by
    rw [hstr]
    intro e
    simp only [Option.some.injEq, List.cons.injEq] at e
    exact h34 e.1
  have h2 : JSON.stringify (JSValue.number x) ≠ some [LBRACE, RBRACE] := by
    rw [hstr]
    intro e
    simp only [Option.some.injEq, List.cons.injEq, LBRACE] at e
    exact h123 e.1
  unfold messageToShow
  simp [h1, h2, JSValue.truthy, h, JSValue.toStringPrimitive]

theorem messageToShow_true : messageToShow (JSValue.bool true) = utf16 "true" := by
  decide

theorem messageToShow_empty {resData : JSValue}
    (h : resData.truthy = false ∨ resData = JSValue.object []) :
    messageToShow resData = utf16 "The server returned an empty response." := by
  rcases h with h | rfl
  · unfold messageToShow
    simp [h]
  · decide

/-- The error that `handleSend` sets for a reply of status at least 400 that
is not the DNS case and whose data can be read. -/
theorem handleSend_http_error {w : World} {st : AppState} {status : Nat}
    {data resData : JSValue} (hreply : proxyReply w st = some (status, data))
    (hge : 400 ≤ status) (hdns : status = 500 → dnsMarker data = false)
    (hdata : data.getField (utf16 "data") = .ok resData) :
    (handleSend w st).1.error
        = some {
            title := utf16 "Error " ++ natToString status ++ utf16 ": "
              ++ (STATUS_TEXT status).getD (utf16 "Error"),
            message := messageToShow resData,
            status := .code status }
      ∧ (handleSend w st).1.response = none := by
  rw [handleSend_of_proxyReply hreply, processReply_http_error hge hdns hdata]
  exact ⟨rfl, rfl⟩

/-- C17: for a reply of status at least 400 that is not reclassified as a DNS
error (and whose data is an envelope, not null or undefined), the title of
the error is `Error `, the status, `: ` and the phrase: the entry of the table
`STATUS_TEXT` for the status, or `Error` when the table has none. -/
theorem handleSend_http_error_title (w : World) (st : AppState) (status : Nat)
    (data : JSValue) (hreply : proxyReply w st = some (status, data)) (hge : 400 ≤ status)
    (hdns : status = 500 → dnsMarker data = false) (hnull : data ≠ JSValue.null)
    (hundef : data ≠ JSValue.undefined) :
    ∃ e, (handleSend w st).1.error = some e
      ∧ e.title = utf16 "Error " ++ natToString status ++ utf16 ": "
          ++ (match STATUS_TEXT status with
              | some phrase => phrase
              | none => utf16 "Error") := by
  obtain ⟨resData, hdata⟩ := getField_ok_of_defined hnull hundef (utf16 "data")
  refine ⟨_, (handleSend_http_error hreply hge hdns hdata).1, ?_⟩
  cases STATUS_TEXT status <;> rfl

theorem handleSend_http_error_title_witness :
    (∃ e, (handleSend (replyWorld 404 demoErrorEnvelope) (demoState demoUrl)).1.error = some e
        ∧ e.title = utf16 "Error 404: Not Found")
      ∧ ∃ e, (handleSend (replyWorld 418 demoErrorEnvelope) (demoState demoUrl)).1.error
            = some e
          ∧ e.title = utf16 "Error 418: Error" := by
  obtain ⟨e1, h1, t1⟩ :=
    handleSend_http_error_title (replyWorld 404 demoErrorEnvelope) (demoState demoUrl) 404
      demoErrorEnvelope rfl (by decide) (by decide) (fun h => nomatch h) (fun h => nomatch h)
  obtain ⟨e2, h2, t2⟩ :=
    handleSend_http_error_title (replyWorld 418 demoErrorEnvelope) (demoState demoUrl) 418
      demoErrorEnvelope rfl (by decide) (by decide) (fun h => nomatch h) (fun h => nomatch h)
  exact ⟨⟨e1, h1, t1.trans (by decide)⟩, ⟨e2, h2, t2.trans (by decide)⟩⟩

/-- C18, as stated, fails: for the reply of status 404 whose payload data is
the string `Not Found`, which is neither an object nor an array, the message
of the error is that string, not the literal about an empty response. -/
theorem handleSend_string_payload_message :
    (handleSend
        (replyWorld 404 (.object [(utf16 "data", .string (utf16 "Not Found"))]))
        (demoState demoUrl)).1.error.map (fun e => e.message) = some (utf16 "Not Found")
      ∧ utf16 "Not Found" ≠ utf16 "The server returned an empty response." := by
  decide

/-- C18, amended: for a reply of status at least 400 that is not the DNS case,
with payload data `resData`, the message of the error is the JSON text of
`resData` indented by two spaces when `resData` is a non-empty array or an
object with a member; it is `String(resData)` when `resData` is `true`, a
number other than 0 or a non-empty string; and it is the literal
`The server returned an empty response.` when `resData` is undefined, null,
`false`, 0, the empty string or the empty object. -/
theorem handleSend_http_error_message (w : World) (st : AppState) (status : Nat)
    (data resData : JSValue) (hreply : proxyReply w st = some (status, data))
    (hge : 400 ≤ status) (hdns : status = 500 → dnsMarker data = false)
    (hdata : data.getField (utf16 "data") = .ok resData) :
    ∃ e, (handleSend w st).1.error = some e
      ∧ (∀ items, resData = JSValue.array items → items ≠ [] →
          JSON.stringifyIndented resData = some e.message)
      ∧ (∀ fields, resData = JSValue.object fields →
          (∃ p ∈ fields, p.2 ≠ JSValue.undefined) →
            JSON.stringifyIndented resData = some e.message)
      ∧ (resData = JSValue.bool true
            ∨ (∃ x : JSNumber, x.isZero = false ∧ resData = JSValue.number x)
            ∨ (∃ s, s ≠ [] ∧ resData = JSValue.string s) →
          e.message = resData.toStringPrimitive)
      ∧ (resData.truthy = false ∨ resData = JSValue.object [] →
          e.message = utf16 "The server returned an empty response.") := by
  refine ⟨_, (handleSend_http_error hreply hge hdns hdata).1, ?_, ?_, ?_, ?_⟩
  · rintro items rfl _
    exact (messageToShow_array items).symm
  · rintro fields rfl hf
    exact (messageToShow_object hf).symm
  · rintro (rfl | ⟨n, hn, rfl⟩ | ⟨s, hs, rfl⟩)
    · exact messageToShow_true
    · exact messageToShow_number hn
    · exact messageToShow_string hs
  · intro h
    exact messageToShow_empty h

theorem handleSend_http_error_message_witness :
    (∃ e, (handleSend (replyWorld 404 demoErrorEnvelope) (demoState demoUrl)).1.error = some e
        ∧ e.message = utf16 "\x7b\n  \"msg\": \"no\"\n\x7d")
      ∧ (∃ e, (handleSend (replyWorld 404 priceEnvelope) (demoState demoUrl)).1.error = some e
        ∧ e.message = utf16 "\x7b\n  \"price\": 9.99\n\x7d")
      ∧ (∃ e, (handleSend (replyWorld 500 largeNumberEnvelope) (demoState demoUrl)).1.error
            = some e
        ∧ e.message = utf16 "1e+21") := by
  obtain ⟨e1, he1, _, hobj1, _, _⟩ :=
    handleSend_http_error_message (replyWorld 404 demoErrorEnvelope) (demoState demoUrl) 404
      demoErrorEnvelope (.object [ (utf16 "msg", .string (utf16 "no")) ]) rfl (by decide)
      (by decide) rfl
  obtain ⟨e2, he2, _, hobj2, _, _⟩ :=
    handleSend_http_error_message (replyWorld 404 priceEnvelope) (demoState demoUrl) 404
      priceEnvelope (.object [ (utf16 "price", .number { mantissa := 999, exponent := -2 }) ])
      rfl (by decide) (by decide) rfl
  obtain ⟨e3, he3, _, _, hprim3, _⟩ :=
    handleSend_http_error_message (replyWorld 500 largeNumberEnvelope) (demoState demoUrl)
      500 largeNumberEnvelope (.number { mantissa := 1, exponent := 21 }) rfl (by decide)
      (by decide) rfl
  have hmsg1 := hobj1 _ rfl ⟨(utf16 "msg", .string (utf16 "no")), List.mem_singleton.mpr rfl,
    fun h => nomatch h⟩
  have hval1 : JSON.stringifyIndented (.object [ (utf16 "msg", .string (utf16 "no")) ])
      = some (utf16 "\x7b\n  \"msg\": \"no\"\n\x7d") := by decide!
  have hmsg2 := hobj2 _ rfl
    ⟨(utf16 "price", .number { mantissa := 999, exponent := -2 }), List.mem_singleton.mpr rfl,
      fun h => nomatch h⟩
  have hval2 : JSON.stringifyIndented
      (.object [ (utf16 "price", .number { mantissa := 999, exponent := -2 }) ])
      = some (utf16 "\x7b\n  \"price\": 9.99\n\x7d") := by decide!
  have hmsg3 := hprim3 (Or.inr (Or.inl ⟨_, by decide!, rfl⟩))
  have hval3 : (JSValue.number { mantissa := 1, exponent := 21 }).toStringPrimitive
      = utf16 "1e+21" := by decide!
  exact ⟨⟨e1, he1, Option.some.inj (hmsg1.symm.trans hval1)⟩,
    ⟨e2, he2, Option.some.inj (hmsg2.symm.trans hval2)⟩, ⟨e3, he3, hmsg3.trans hval3⟩⟩

/-! ## The table of reason phrases -/

theorem lookup_isSome_iff (k : Nat) :
    ∀ l : List (Nat × JSString), (l.lookup k).isSome = true ↔ k ∈ l.map Prod.fst := by
  intro l
  induction l with
  | nil => simp
  | cons p l ih =>
    obtain ⟨a, b⟩ := p
    by_cases hk : k = a
    · subst hk; simp [List.lookup_cons]
    · have hbeq : (k == a) = false := by simpa using hk
      simp only [List.lookup_cons, hbeq, ih, List.map_cons, List.mem_cons, hk, false_or]

theorem STATUS_TEXT_isSome_iff (status : Nat) :
    (STATUS_TEXT status).isSome = true ↔ status ∈ tableCodes := by
  unfold STATUS_TEXT
  rw [lookup_isSome_iff]
  rfl

theorem STATUS_TEXT_eq_none {status : Nat} (h : status ∉ tableCodes) :
    STATUS_TEXT status = none := by
  cases hs : STATUS_TEXT status with
  | none => rfl
  | some phrase =>
    exact absurd ((STATUS_TEXT_isSome_iff status).mp (by rw [hs]; rfl)) h

/-- C19, as stated, fails: the status code 202 is outside the table and the
reason phrase shown next to a Response of that status is `OK`, not `Error`. -/
theorem statusBadgePhrase_unknown_code :
    202 ∉ tableCodes ∧ statusBadgePhrase 202 = utf16 "OK" ∧ utf16 "OK" ≠ utf16 "Error" := by
  decide

/-- C19, amended: the table `STATUS_TEXT` is defined for exactly the codes
200, 201, 204, 301, 302, 400, 401, 403, 404, 405, 429, 500, 502, 503 and 504;
for a status code outside it the phrase in the title of the error of an HTTP
error reply is `Error`, and the phrase in the status badge next to a Response
is `OK`. -/
theorem STATUS_TEXT_fallbacks (status : Nat) :
    ((STATUS_TEXT status).isSome = true ↔
        status ∈ [200, 201, 204, 301, 302, 400, 401, 403, 404, 405, 429, 500, 502, 503, 504])
      ∧ (status ∉ [200, 201, 204, 301, 302, 400, 401, 403, 404, 405, 429, 500, 502, 503, 504] →
          statusBadgePhrase status = utf16 "OK"
            ∧ ∀ (w : World) (st : AppState) (data : JSValue),
                proxyReply w st = some (status, data) → 400 ≤ status →
                  data ≠ JSValue.null → data ≠ JSValue.undefined →
                    ∃ e, (handleSend w st).1.error = some e
                      ∧ e.title
                        = utf16 "Error " ++ natToString status ++ utf16 ": " ++ utf16 "Error") := by
  refine ⟨STATUS_TEXT_isSome_iff status, fun hout => ?_⟩
  have hnone := @STATUS_TEXT_eq_none status hout
  refine ⟨by unfold statusBadgePhrase; rw [hnone]; rfl, ?_⟩
  intro w st data hreply hge hnull hundef
  obtain ⟨resData, hdata⟩ := getField_ok_of_defined hnull hundef (utf16 "data")
  have h500 : status ≠ 500 := fun e => hout (by rw [e]; decide)
  refine ⟨_, (handleSend_http_error hreply hge (fun e => absurd e h500) hdata).1, ?_⟩
  simp only [hnone, Option.getD_none]

theorem STATUS_TEXT_fallbacks_witness :
    statusBadgePhrase 418 = utf16 "OK"
      ∧ ∃ e, (handleSend (replyWorld 418 demoErrorEnvelope) (demoState demoUrl)).1.error
            = some e
          ∧ e.title = utf16 "Error 418: Error" := by
  obtain ⟨hbadge, htitle⟩ := (STATUS_TEXT_fallbacks 418).2 (by decide)
  obtain ⟨e, he, ht⟩ :=
    htitle (replyWorld 418 demoErrorEnvelope) (demoState demoUrl) demoErrorEnvelope rfl
      (by decide) (fun h => nomatch h) (fun h => nomatch h)
  exact ⟨hbadge, e, he, ht.trans (by decide)⟩

/-! ## The DNS case -/

theorem truthy_of_stringify_marker {details : JSValue} {str : JSString}
    (hs : JSON.stringify details = some str) (hin : utf16 "ENOTFOUND" <:+: str) :
    details.truthy = true := by
  cases details with
  | undefined => simp [JSON.stringify, JSON.serializeProperty] at hs
  | null =>
    simp only [JSON.stringify, JSON.serializeProperty, Option.some.injEq] at hs
    subst hs
    exact absurd hin (by decide)
  | bool b =>
    cases b with
    | true => rfl
    | false =>
      simp only [JSON.stringify, JSON.serializeProperty, Option.some.injEq] at hs
      subst hs
      exact absurd hin (by decide)
  | number x =>
    by_cases hz : x.isZero = true
    · obtain ⟨hfin, htext⟩ := numberToString_of_isZero hz
      simp only [JSON.stringify, JSON.serializeProperty, hfin, if_true, htext,
        Option.some.injEq] at hs
      subst hs
      exact absurd hin (by decide)
    · simp [JSValue.truthy, hz]
  | string s =>
    cases s with
    | nil =>
      simp only [JSON.stringify, JSON.serializeProperty, Option.some.injEq] at hs
      subst hs
      exact absurd hin (by decide)
    | cons c s => rfl
  | array items => rfl
  | object fields => rfl

theorem dnsMarker_iff (data : JSValue) : dnsMarker data = true ↔ hasDnsDetails data := by
  have hpat : utf16 "ENOTFOUND" ≠ [] := by decide
  constructor
  · intro h
    unfold dnsMarker at h
    cases data with
    | object fields =>
      simp only at h
      cases hl : fields.lookup (utf16 "details") with
      | none => simp [hl, JSValue.truthy] at h
      | some details =>
        simp only [hl, Option.getD_some, Bool.and_eq_true] at h
        cases hs : JSON.stringify details with
        | none => simp [hs] at h
        | some str =>
          simp only [hs] at h
          exact ⟨fields, details, str, rfl, hl, hs, (includes_eq_true_iff hpat).mp h.2⟩
    | undefined => simp [JSValue.truthy] at h
    | null => simp [JSValue.truthy] at h
    | bool b => simp [JSValue.truthy] at h
    | number n => simp [JSValue.truthy] at h
    | string s => simp [JSValue.truthy] at h
    | array items => simp [JSValue.truthy] at h
  · rintro ⟨fields, details, str, rfl, hl, hs, hin⟩
    unfold dnsMarker
    simp only [hl, Option.getD_some, hs, truthy_of_stringify_marker hs hin, Bool.true_and]
    exact (includes_eq_true_iff hpat).mpr hin

theorem errorPayload_not_dns (err : JSError) :
    (errorPayload err).title ≠ utf16 "Address Not Found"
      ∧ (errorPayload err).status ≠ ErrorStatus.label (utf16 "DNS Error") := by
  unfold errorPayload
  repeat' split
  all_goals exact ⟨by decide, by decide⟩

theorem http_error_title_ne (status : Nat) (phrase : JSString) :
    utf16 "Error " ++ natToString status ++ utf16 ": " ++ phrase
      ≠ utf16 "Address Not Found" := by
  rw [show utf16 "Error " = 69 :: utf16 "rror " by decide,
    show utf16 "Address Not Found" = 65 :: utf16 "ddress Not Found" by decide]
  simp

theorem processReply_error_not_dns {st st2 : AppState} {status : Nat} {data : JSValue}
    {effects : List Effect} {e : ErrorReport} (hst : st.error = none)
    (hdns : ¬ (status = 500 ∧ dnsMarker data = true))
    (h : processReply st status data = .ok (st2, effects)) (he : st2.error = some e) :
    e.title ≠ utf16 "Address Not Found"
      ∧ e.status ≠ ErrorStatus.label (utf16 "DNS Error") := by
  unfold processReply at h
  split at h
  · rename_i hc
    exact absurd (by simpa using hc) hdns
  · simp only at h
    split at h
    · split at h
      · cases h
      · cases h
        simp only [Option.some.injEq] at he
        subst he
        exact ⟨http_error_title_ne _ _, fun e => nomatch e⟩
    · split at h
      · cases h
        simp only [hst] at he
        cases he
      all_goals cases h

/-- C20: when the proxy replied with status 500 and the data of the reply is
an envelope with a `details` field whose serialized form contains
`ENOTFOUND`, `handleSend` sets the error titled `Address Not Found` with the
status label `DNS Error` (not the report titled `Error 500: Internal Server
Error`) and no Response; and when the error that `handleSend` sets for a reply
has that title or that status label, the reply has status 500 and such a
`details` field. -/
theorem handleSend_dns_override (w : World) (st : AppState) (status : Nat) (data : JSValue)
    (hreply : proxyReply w st = some (status, data)) :
    (status = 500 ∧ hasDnsDetails data →
        (handleSend w st).1.error = some dnsReport
          ∧ dnsReport.title = utf16 "Address Not Found"
          ∧ dnsReport.status = ErrorStatus.label (utf16 "DNS Error")
          ∧ dnsReport.title ≠ utf16 "Error 500: Internal Server Error"
          ∧ (handleSend w st).1.response = none)
      ∧ (∀ e, (handleSend w st).1.error = some e →
          e.title = utf16 "Address Not Found"
            ∨ e.status = ErrorStatus.label (utf16 "DNS Error") →
          status = 500 ∧ hasDnsDetails data) := by
  rw [handleSend_of_proxyReply hreply]
  constructor
  · rintro ⟨rfl, hd⟩
    rw [processReply_dns ((dnsMarker_iff data).mpr hd)]
    exact ⟨rfl, rfl, rfl, by decide, rfl⟩
  · intro e he hte
    by_cases hdns : status = 500 ∧ dnsMarker data = true
    · exact ⟨hdns.1, (dnsMarker_iff data).mp hdns.2⟩
    · exfalso
      cases hrep : processReply { st with loading := true, error := none, response := none }
          status data with
      | error err =>
        simp only [hrep, Option.some.injEq] at he
        subst he
        have := errorPayload_not_dns err
        rcases hte with h | h
        · exact this.1 h
        · exact this.2 h
      | ok res =>
        obtain ⟨st2, effects⟩ := res
        simp only [hrep] at he
        have := processReply_error_not_dns rfl hdns hrep he
        rcases hte with h | h
        · exact this.1 h
        · exact this.2 h

theorem handleSend_dns_override_witness :
    (handleSend (replyWorld 500 demoDnsData) (demoState demoUrl)).1.error = some dnsReport
      ∧ (handleSend (replyWorld 500 demoDnsData) (demoState demoUrl)).1.response = none := by
  have hdetails : hasDnsDetails demoDnsData :=
    ⟨_, JSValue.string (utf16 "getaddrinfo ENOTFOUND nosuchhost.example"),
      quoteJSONString (utf16 "getaddrinfo ENOTFOUND nosuchhost.example"), rfl, rfl, rfl,
      by decide⟩
  obtain ⟨h1, _, _, _, h2⟩ :=
    (handleSend_dns_override (replyWorld 500 demoDnsData) (demoState demoUrl) 500
      demoDnsData rfl).1 ⟨rfl, hdetails⟩
  exact ⟨h1, h2⟩

/-! ## Claims on the failures of a send -/

/-- The state after `handleSend` when the `catch` block received an error:
the report of `errorPayload`, no Response, `loading` false. -/
theorem handleSend_of_caughtError {w : World} {st : AppState} {err : JSError}
    (h : caughtError w st = some err) :
    (handleSend w st).1
      = { st with loading := false, error := some (errorPayload err), response := none } := by
  unfold caughtError at h
  unfold handleSend
  by_cases hblank : (trim st.url).isEmpty = true
  · simp [hblank] at h
  · by_cases hon : w.onLine = true
    · simp only [hblank, hon, Bool.not_true, Bool.false_eq_true, if_false, Bool.or_self] at h ⊢
      cases hreq : composeRequest w st with
      | error e =>
        simp only [hreq, Option.some.injEq] at h ⊢
        subst h; rfl
      | ok req =>
        simp only [hreq] at h ⊢
        cases hpost : w.post req with
        | rejected e =>
          simp only [hpost, Option.some.injEq] at h ⊢
          subst h; rfl
        | resolved status data =>
          simp only [hpost] at h ⊢
          cases hrep : processReply
              { st with loading := true, error := none, response := none } status data with
          | error e =>
            simp only [hrep, Option.some.injEq] at h ⊢
            subst h; rfl
          | ok res => simp [hrep] at h
    · have hoff : w.onLine = false := by simpa using hon
      simp [hblank, hoff] at h

theorem caughtError_of_transportFailure {w : World} {st : AppState} {err : JSError}
    (h : transportFailure w st = some err) : caughtError w st = some err := by
  unfold transportFailure at h
  unfold caughtError
  split
  · rename_i hg; simp [hg] at h
  · rename_i hg
    simp only [hg, Bool.false_eq_true, if_false] at h
    cases hreq : composeRequest w st with
    | error e => simp [hreq] at h
    | ok req =>
      simp only [hreq] at h ⊢
      cases hpost : w.post req with
      | rejected e => simpa [hpost] using h
      | resolved status data => simp [hpost] at h

theorem errorPayload_timeout {err : JSError} (hcode : err.code = some (utf16 "ECONNABORTED"))
    (hurl : err.message ≠ utf16 "Malformed URL")
    (hbody : err.message ≠ utf16 "Invalid JSON Body") :
    errorPayload err
      = { title := utf16 "Request Timed Out",
          message := utf16 "The server took too long to respond (>15s).",
          status := .label (utf16 "Timeout") } := by
  unfold errorPayload
  rw [if_neg hurl, if_neg hbody, hcode, if_neg (by decide), if_pos rfl]

theorem errorPayload_network {err : JSError} (hcode : err.code = some (utf16 "ERR_NETWORK"))
    (hurl : err.message ≠ utf16 "Malformed URL")
    (hbody : err.message ≠ utf16 "Invalid JSON Body") :
    errorPayload err
      = { title := utf16 "Network Error",
          message := utf16
            "Could not reach the backend server. Ensure the backend is running on port 5000.",
          status := .label (utf16 "Connection Failed") } := by
  unfold errorPayload
  rw [if_neg hurl, if_neg hbody, hcode, if_pos rfl]

theorem errorPayload_generic {err : JSError} (hurl : err.message ≠ utf16 "Malformed URL")
    (hbody : err.message ≠ utf16 "Invalid JSON Body")
    (hnet : err.code ≠ some (utf16 "ERR_NETWORK"))
    (htime : err.code ≠ some (utf16 "ECONNABORTED")) :
    errorPayload err
      = { title := utf16 "Request Failed",
          message := utf16 "An unknown error occurred.",
          status := .label (utf16 "Error") } := by
  unfold errorPayload
  rw [if_neg hurl, if_neg hbody, if_neg hnet, if_neg htime]

/-- C21: when the dispatch fails with a transport failure of kind Timeout (the
transport rejects with the code `ECONNABORTED`; the message is the
transport's, not one of the two messages that `handleSend` itself throws),
the error of `handleSend` is the report titled `Request Timed Out` with the
status label `Timeout`; no Response is set and `loading` is false. -/
theorem handleSend_timeout (w : World) (st : AppState) (err : JSError)
    (hfail : transportFailure w st = some err)
    (hcode : err.code = some (utf16 "ECONNABORTED"))
    (hurl : err.message ≠ utf16 "Malformed URL")
    (hbody : err.message ≠ utf16 "Invalid JSON Body") :
    (handleSend w st).1.error
        = some {
            title := utf16 "Request Timed Out",
            message := utf16 "The server took too long to respond (>15s).",
            status := ErrorStatus.label (utf16 "Timeout") }
      ∧ (handleSend w st).1.response = none ∧ (handleSend w st).1.loading = false := by
  rw [handleSend_of_caughtError (caughtError_of_transportFailure hfail)]
  exact ⟨by rw [← errorPayload_timeout hcode hurl hbody], rfl, rfl⟩

theorem handleSend_timeout_witness :
    (handleSend (failWorld timeoutError) (demoState demoUrl)).1.error
        = some {
            title := utf16 "Request Timed Out",
            message := utf16 "The server took too long to respond (>15s).",
            status := ErrorStatus.label (utf16 "Timeout") }
      ∧ (handleSend (failWorld timeoutError) (demoState demoUrl)).1.response = none
      ∧ (handleSend (failWorld timeoutError) (demoState demoUrl)).1.loading = false :=
  handleSend_timeout (failWorld timeoutError) (demoState demoUrl) timeoutError (by decide)
    (by decide) (by decide) (by decide)

/-- C22: when the dispatch fails with a transport failure of kind NetworkError
(the transport rejects with the code `ERR_NETWORK`; the message is the
transport's, not one of the two messages that `handleSend` itself throws),
the error of `handleSend` is the report titled `Network Error` with the
status label `Connection Failed`; no Response is set and `loading` is
false. -/
theorem handleSend_network_error (w : World) (st : AppState) (err : JSError)
    (hfail : transportFailure w st = some err)
    (hcode : err.code = some (utf16 "ERR_NETWORK"))
    (hurl : err.message ≠ utf16 "Malformed URL")
    (hbody : err.message ≠ utf16 "Invalid JSON Body") :
    (handleSend w st).1.error
        = some {
            title := utf16 "Network Error",
            message := utf16
              "Could not reach the backend server. Ensure the backend is running on port 5000.",
            status := ErrorStatus.label (utf16 "Connection Failed") }
      ∧ (handleSend w st).1.response = none ∧ (handleSend w st).1.loading = false := by
  rw [handleSend_of_caughtError (caughtError_of_transportFailure hfail)]
  exact ⟨by rw [← errorPayload_network hcode hurl hbody], rfl, rfl⟩

theorem handleSend_network_error_witness :
    (handleSend (failWorld networkError) (demoState demoUrl)).1.error
        = some {
            title := utf16 "Network Error",
            message := utf16
              "Could not reach the backend server. Ensure the backend is running on port 5000.",
            status := ErrorStatus.label (utf16 "Connection Failed") }
      ∧ (handleSend (failWorld networkError) (demoState demoUrl)).1.response = none
      ∧ (handleSend (failWorld networkError) (demoState demoUrl)).1.loading = false :=
  handleSend_network_error (failWorld networkError) (demoState demoUrl) networkError
    (by decide) (by decide) (by decide) (by decide)

/-- C23: when the `catch` block of `handleSend` receives a failure that is
neither the invalid-URL nor the invalid-body error (by its message) nor a
transport failure of kind NetworkError or Timeout (by its code), the error of
`handleSend` is the report titled `Request Failed` with the message
`An unknown error occurred.`; no Response is set and `loading` is false. -/
theorem handleSend_generic_failure (w : World) (st : AppState) (err : JSError)
    (hcaught : caughtError w st = some err)
    (hurl : err.message ≠ utf16 "Malformed URL")
    (hbody : err.message ≠ utf16 "Invalid JSON Body")
    (hnet : err.code ≠ some (utf16 "ERR_NETWORK"))
    (htime : err.code ≠ some (utf16 "ECONNABORTED")) :
    (handleSend w st).1.error
        = some {
            title := utf16 "Request Failed",
            message := utf16 "An unknown error occurred.",
            status := ErrorStatus.label (utf16 "Error") }
      ∧ (handleSend w st).1.response = none ∧ (handleSend w st).1.loading = false := by
  rw [handleSend_of_caughtError hcaught]
  exact ⟨by rw [← errorPayload_generic hurl hbody hnet htime], rfl, rfl⟩

theorem handleSend_generic_failure_witness :
    (handleSend (replyWorld 200 JSValue.null) (demoState demoUrl)).1.error
        = some {
            title := utf16 "Request Failed",
            message := utf16 "An unknown error occurred.",
            status := ErrorStatus.label (utf16 "Error") }
      ∧ (handleSend (replyWorld 200 JSValue.null) (demoState demoUrl)).1.response = none
      ∧ (handleSend (replyWorld 200 JSValue.null) (demoState demoUrl)).1.loading = false :=
  handleSend_generic_failure (replyWorld 200 JSValue.null) (demoState demoUrl)
    (propertyTypeError (utf16 "null") (utf16 "status")) (by decide) (by decide) (by decide)
    (by decide) (by decide)

/-! ## Claims on the result of a send as a whole -/

/-- The three ways `handleSend` ends: at a guard, in the `catch` block, or
after the reply was read without an error. -/
theorem handleSend_cases (w : World) (st : AppState) :
    (((trim st.url).isEmpty = true ∨ w.onLine = false)
        ∧ ∃ report : ErrorReport, handleSend w st = ({ st with error := some report }, [])
          ∧ report.title ≠ [] ∧ report.message ≠ [])
      ∨ (∃ err, caughtError w st = some err)
      ∨ (∃ status data st2 effects req, proxyReply w st = some (status, data)
          ∧ processReply { st with loading := true, error := none, response := none }
              status data = .ok (st2, effects)
          ∧ handleSend w st
              = ({ st2 with loading := false }, Effect.proxyPost req :: effects)) := by
  by_cases hblank : (trim st.url).isEmpty = true
  · refine Or.inl ⟨Or.inl hblank,
      { title := utf16 "Invalid URL",
        message := utf16 "Please enter a valid URL to send a request.",
        status := .label (utf16 "Client Error") }, ?_, by decide, by decide⟩
    unfold handleSend
    rw [if_pos hblank]
  · by_cases hon : w.onLine = true
    · right
      unfold caughtError proxyReply handleSend
      simp only [hblank, hon, Bool.not_true, Bool.false_eq_true, if_false, Bool.or_self]
      cases hreq : composeRequest w st with
      | error e => exact Or.inl ⟨e, rfl⟩
      | ok req =>
        simp only []
        cases hpost : w.post req with
        | rejected e => exact Or.inl ⟨e, rfl⟩
        | resolved status data =>
          simp only []
          cases hrep : processReply
              { st with loading := true, error := none, response := none } status data with
          | error e => exact Or.inl ⟨e, rfl⟩
          | ok res =>
            obtain ⟨st2, effects⟩ := res
            exact Or.inr ⟨status, data, st2, effects, req, rfl, hrep, rfl⟩
    · have hoff : w.onLine = false := by simpa using hon
      refine Or.inl ⟨Or.inr hoff,
        { title := utf16 "No Internet Connection",
          message := utf16 "You are offline. Please check your network settings.",
          status := .label (utf16 "Offline") }, ?_, by decide, by decide⟩
      unfold handleSend
      rw [if_neg hblank, hoff]
      rfl

theorem toDigitsCore_ne_nil (b : Nat) : ∀ (fuel n : Nat) (ds : List Char), ds ≠ [] →
    Nat.toDigitsCore b fuel n ds ≠ [] := by
  intro fuel
  induction fuel with
  | zero => intro n ds h; simpa [Nat.toDigitsCore] using h
  | succ fuel ih =>
    intro n ds h
    unfold Nat.toDigitsCore
    simp only
    split
    · simp
    · exact ih _ _ (by simp)

theorem natToString_ne_nil (n : Nat) : natToString n ≠ [] := by
  unfold natToString Nat.toDigits Nat.toDigitsCore
  simp only [ne_eq, List.map_eq_nil_iff]
  split
  · simp
  · exact toDigitsCore_ne_nil 10 _ _ _ (by simp)

theorem numberToString_ne_nil (x : JSNumber) : numberToString x ≠ [] := by
  obtain ⟨c, rest, hstr, -⟩ := numberToString_head x
  rw [hstr]
  exact List.cons_ne_nil _ _

theorem messageToShow_ne_nil (resData : JSValue) : messageToShow resData ≠ [] := by
  unfold messageToShow
  split
  · rename_i hc
    cases resData with
    | undefined => simp [JSValue.truthy] at hc
    | null => simp [JSValue.truthy] at hc
    | bool b =>
      cases b
      · simp [JSValue.truthy] at hc
      · decide
    | number n => exact numberToString_ne_nil n
    | string str =>
      intro e
      have e2 : str = [] := e
      subst e2
      simp [JSValue.truthy] at hc
    | array items =>
      obtain ⟨tail, h⟩ := wrapParts_head 91 93 [32, 32] []
        (JSON.serializeElements [32, 32] [32, 32] items)
      simp [JSON.stringifyIndented, JSON.serializeProperty, h]
    | object fields =>
      obtain ⟨tail, h⟩ := wrapParts_head 123 125 [32, 32] []
        (JSON.serializeFields [32, 32] [32, 32] fields)
      simp [JSON.stringifyIndented, JSON.serializeProperty, h]
  · decide

theorem errorPayload_fields (err : JSError) :
    (errorPayload err).title ≠ [] ∧ (errorPayload err).message ≠ [] := by
  unfold errorPayload
  split_ifs <;> exact ⟨by decide, by decide⟩

/-- The state that `processReply` returns: an error object with a title and
a message, or the Response read from the envelope of a reply of status below
400, the error left as it was. -/
theorem processReply_ok_shape {st st2 : AppState} {status : Nat} {data : JSValue}
    {effects : List Effect} (h : processReply st status data = .ok (st2, effects)) :
    (st2.response = st.response
        ∧ ∃ report : ErrorReport, st2.error = some report ∧ report.title ≠ []
          ∧ report.message ≠ [])
      ∨ (st2.error = st.error ∧ status < 400
          ∧ ∃ r : Response, st2.response = some r
            ∧ data.getField (utf16 "status") = .ok r.status) := by
  unfold processReply at h
  split at h
  · simp only [Except.ok.injEq, Prod.mk.injEq] at h
    obtain ⟨rfl, -⟩ := h
    exact Or.inl ⟨rfl, _, rfl, by decide, by decide⟩
  · simp only at h
    split at h
    · split at h
      · exact nomatch h
      · rename_i resData hdata
        simp only [Except.ok.injEq, Prod.mk.injEq] at h
        obtain ⟨rfl, -⟩ := h
        refine Or.inl ⟨rfl, _, rfl, ?_, messageToShow_ne_nil resData⟩
        show utf16 "Error " ++ natToString status ++ utf16 ": "
          ++ (STATUS_TEXT status).getD (utf16 "Error") ≠ []
        intro e
        have hlen := congrArg List.length e
        simp only [List.length_append] at hlen
        have : (utf16 "Error ").length = 6 := by decide
        simp only [List.length_nil] at hlen
        omega
    · rename_i hlt
      split at h
      · rename_i sv dv tv zv hs hd ht hz
        simp only [Except.ok.injEq, Prod.mk.injEq] at h
        obtain ⟨rfl, -⟩ := h
        exact Or.inr ⟨rfl, by omega, _, rfl, hs⟩
      all_goals exact nomatch h

theorem processReply_history {st st2 : AppState} {status : Nat} {data : JSValue}
    {effects : List Effect} (h : processReply st status data = .ok (st2, effects))
    (huser : st.user.isSome = true) (hdns : status = 500 → dnsMarker data = false) :
    effects = [Effect.fetchHistory] := by
  unfold processReply at h
  split at h
  · rename_i hc
    simp only [Bool.and_eq_true, decide_eq_true_eq] at hc
    rw [hdns hc.1] at hc
    exact absurd hc.2 (by decide)
  · simp only [huser, if_true] at h
    split at h
    · split at h
      · exact nomatch h
      · simp only [Except.ok.injEq, Prod.mk.injEq] at h
        exact h.2.symm
    · split at h
      · simp only [Except.ok.injEq, Prod.mk.injEq] at h
        exact h.2.symm
      all_goals exact nomatch h

/-- The paths next to the DNS one: for a signed-in user, a reply that is not
the DNS case and is read without an error is followed by the call of
`fetchHistory`. -/
theorem handleSend_history_after_reply {w : World} {st : AppState} {status : Nat}
    {data : JSValue} (huser : st.user.isSome = true)
    (hreply : proxyReply w st = some (status, data))
    (hdns : status = 500 → dnsMarker data = false) (hcaught : caughtError w st = none) :
    (handleSend w st).2.any Effect.isFetchHistory = true := by
  rcases handleSend_cases w st with ⟨hguard, -⟩ | ⟨err, herr⟩ | ⟨s2, d2, st2, effects, req, hr, hp, hs⟩
  · unfold proxyReply at hreply
    rcases hguard with hg | hg <;> simp [hg] at hreply
  · rw [hcaught] at herr
    exact nomatch herr
  · rw [hreply] at hr
    simp only [Option.some.injEq, Prod.mk.injEq] at hr
    obtain ⟨rfl, rfl⟩ := hr
    have := processReply_history hp huser hdns
    rw [hs, this]
    rfl

/-- C24: the claim fails on the DNS path. For the signed-in example user and
a reply of the proxy of status 500 whose details contain `ENOTFOUND`, the
send reached the dispatch and `handleSend` sets the DNS error report, but the
calls it issues do not include `fetchHistory`: the DNS branch returns before
the line `if (user) fetchHistory()` that the other two classifications
reach. -/
theorem handleSend_dns_skips_history :
    signedInState.user.isSome = true
      ∧ proxyReply (replyWorld 500 demoDnsData) signedInState = some (500, demoDnsData)
      ∧ (handleSend (replyWorld 500 demoDnsData) signedInState).1.error = some dnsReport
      ∧ (handleSend (replyWorld 500 demoDnsData) signedInState).2.any Effect.isFetchHistory
          = false :=
  ⟨rfl, rfl, by decide, by decide⟩

/-- C25: `handleSend` is a total function of the draft, the environment, the
store and the transport (no error leaves it), and, called with `loading`
false as the Send button allows, it ends with `loading` false and either
with an error object whose title and message are non-empty strings and whose
status is set, or with no error and the Response of the reply of this
send. -/
theorem handleSend_no_failure_escapes (w : World) (st : AppState)
    (hidle : st.loading = false) :
    (handleSend w st).1.loading = false
      ∧ ((∃ report : ErrorReport, (handleSend w st).1.error = some report
            ∧ report.title ≠ [] ∧ report.message ≠ [])
        ∨ ((handleSend w st).1.error = none
            ∧ (∃ r : Response, (handleSend w st).1.response = some r)
            ∧ (proxyReply w st).isSome = true)) := by
  rcases handleSend_cases w st with
    ⟨-, report, hs, ht, hm⟩ | ⟨err, herr⟩ | ⟨status, data, st2, effects, req, hr, hp, hs⟩
  · rw [hs]
    exact ⟨hidle, Or.inl ⟨report, rfl, ht, hm⟩⟩
  · rw [handleSend_of_caughtError herr]
    exact ⟨rfl, Or.inl ⟨errorPayload err, rfl, errorPayload_fields err⟩⟩
  · rw [hs]
    refine ⟨rfl, ?_⟩
    rcases processReply_ok_shape hp with ⟨-, report, he, ht, hm⟩ | ⟨he, -, r, hresp, -⟩
    · exact Or.inl ⟨report, he, ht, hm⟩
    · exact Or.inr ⟨he, ⟨r, hresp⟩, by rw [hr]; rfl⟩

theorem handleSend_no_failure_escapes_witness :
    (handleSend (failWorld timeoutError) (demoState demoUrl)).1.loading = false
      ∧ ((∃ report : ErrorReport,
            (handleSend (failWorld timeoutError) (demoState demoUrl)).1.error = some report
            ∧ report.title ≠ [] ∧ report.message ≠ [])
        ∨ ((handleSend (failWorld timeoutError) (demoState demoUrl)).1.error = none
            ∧ (∃ r : Response,
                (handleSend (failWorld timeoutError) (demoState demoUrl)).1.response = some r)
            ∧ (proxyReply (failWorld timeoutError) (demoState demoUrl)).isSome = true)) :=
  handleSend_no_failure_escapes (failWorld timeoutError) (demoState demoUrl) rfl

/-- Past the two guards `handleSend` ends with exactly one of `response` and
`error` set, whatever the state held before. -/
theorem handleSend_one_result_past_guards (w : World) (st : AppState)
    (hurl : (trim st.url).isEmpty = false) (hon : w.onLine = true) :
    ((handleSend w st).1.response.isSome != (handleSend w st).1.error.isSome) = true := by
  rcases handleSend_cases w st with
    ⟨hguard, -⟩ | ⟨err, herr⟩ | ⟨status, data, st2, effects, req, hr, hp, hs⟩
  · rcases hguard with hg | hg
    · rw [hurl] at hg; exact nomatch hg
    · rw [hon] at hg; exact nomatch hg
  · rw [handleSend_of_caughtError herr]
    rfl
  · rw [hs]
    rcases processReply_ok_shape hp with ⟨hresp, report, he, -, -⟩ | ⟨he, -, r, hresp, -⟩
    · simp only [hresp, he]
      rfl
    · simp only [hresp, he]
      rfl

/-- C26: the claim fails at the guards. From a state that holds the Response
of an earlier send and whose URL field is blank, `handleSend` ends with both
`response` (the earlier Response, untouched) and `error` (the `Invalid URL`
report) non-null: the guards return before the lines that clear the two
fields. -/
theorem handleSend_guard_keeps_response :
    staleState.response.isSome = true ∧ staleState.error.isSome = false
      ∧ (handleSend (demoWorld true) staleState).1.response.isSome = true
      ∧ (handleSend (demoWorld true) staleState).1.error
          = some {
              title := utf16 "Invalid URL",
              message := utf16 "Please enter a valid URL to send a request.",
              status := ErrorStatus.label (utf16 "Client Error") } :=
  ⟨rfl, rfl, rfl, by decide⟩

/-- C28, counterexample: for the reply of HTTP status 200 whose envelope has
the `status` field 404, `handleSend` produces a Response and the status that
this Response carries is 404, which is not below 400. -/
theorem handleSend_response_status_unbounded :
    proxyReply (replyWorld 200 notFoundEnvelope) (demoState demoUrl)
        = some (200, notFoundEnvelope)
      ∧ (handleSend (replyWorld 200 notFoundEnvelope) (demoState demoUrl)).1.error = none
      ∧ (handleSend (replyWorld 200 notFoundEnvelope) (demoState demoUrl)).1.response.map
          (fun r => r.status) = some (JSValue.number 404)
      ∧ ¬ ((404 : Int) < 400) :=
  ⟨rfl, by decide, rfl, by decide⟩

/-- C28, amended: for every proxy reply (HTTP status of the exchange and
envelope independent), whenever `handleSend` produces a Response, the HTTP
status of the exchange is below 400, and the status carried by the Response
is the `status` field of the envelope, whatever its value. -/
theorem handleSend_response_status (w : World) (st : AppState) (status : Nat)
    (data : JSValue) (r : Response) (hreply : proxyReply w st = some (status, data))
    (hresp : (handleSend w st).1.response = some r) :
    status < 400 ∧ data.getField (utf16 "status") = .ok r.status := by
  rcases handleSend_cases w st with
    ⟨hguard, -⟩ | ⟨err, herr⟩ | ⟨s2, d2, st2, effects, req, hr, hp, hs⟩
  · unfold proxyReply at hreply
    rcases hguard with hg | hg <;> simp [hg] at hreply
  · rw [handleSend_of_caughtError herr] at hresp
    exact nomatch hresp
  · rw [hreply] at hr
    simp only [Option.some.injEq, Prod.mk.injEq] at hr
    obtain ⟨rfl, rfl⟩ := hr
    rw [hs] at hresp
    rcases processReply_ok_shape hp with ⟨hnone, -⟩ | ⟨-, hlt, r2, hr2, hfield⟩
    · have : st2.response = some r := hresp
      rw [hnone] at this
      exact nomatch this
    · have : st2.response = some r := hresp
      rw [hr2] at this
      simp only [Option.some.injEq] at this
      subst this
      exact ⟨hlt, hfield⟩

theorem handleSend_response_status_witness :
    200 < 400
      ∧ demoEnvelope.getField (utf16 "status") = .ok staleResponse.status :=
  handleSend_response_status (replyWorld 200 demoEnvelope) (demoState demoUrl) 200
    demoEnvelope staleResponse rfl rfl

/-! ## Claims on the environments and on the session -/

theorem mem_saveEnvironmentCalls {r : StoreReplies} {st : SessionState}
    {rows : List EnvironmentVariable}
    (h : StoreCall.insertVariables rows ∈ saveEnvironmentCalls r st) :
    rows ≠ [] ∧ ∃ envId, rows = savedVariables envId st.envEditor.variableRows := by
  have key : ∀ envId : JSString,
      StoreCall.insertVariables rows
          ∈ (if (savedVariables envId st.envEditor.variableRows).isEmpty = true then []
              else [StoreCall.insertVariables
                (savedVariables envId st.envEditor.variableRows)]) →
        rows ≠ [] ∧ ∃ envId, rows = savedVariables envId st.envEditor.variableRows := by
    intro envId hmem
    by_cases hv : (savedVariables envId st.envEditor.variableRows).isEmpty = true
    · rw [if_pos hv] at hmem
      exact nomatch hmem
    · rw [if_neg hv] at hmem
      simp only [List.mem_singleton, StoreCall.insertVariables.injEq] at hmem
      subst hmem
      exact ⟨fun e => hv (by rw [e]; rfl), envId, rfl⟩
  unfold saveEnvironmentCalls saveEnvironment fetchEnvironments at h
  by_cases hid : envIdTruthy st.envEditor.id = true
  · simp only [hid, if_true, List.mem_append, List.mem_cons, List.mem_singleton,
      List.not_mem_nil, or_false, false_or, reduceCtorEq] at h
    exact key _ h
  · simp only [hid, Bool.false_eq_true, if_false] at h
    cases hu : st.user with
    | none => simp [hu] at h
    | some user =>
      simp only [hu] at h
      by_cases ht : envIdTruthy (match r.inserted with
          | some id => some id
          | none => st.envEditor.id) = true
      · simp only [ht, if_true, List.mem_append, List.mem_cons, List.mem_singleton,
          List.not_mem_nil, or_false, false_or, reduceCtorEq] at h
        exact key _ h
      · simp [ht] at h

theorem savedVariables_keys (envId : JSString) (rows : List EditorVariable) :
    (savedVariables envId rows).map (fun v => v.key)
      = (rows.map (fun v => v.key)).filter (fun k => !k.isEmpty) := by
  unfold savedVariables
  induction rows with
  | nil => rfl
  | cons v rows ih =>
    by_cases hk : v.key.isEmpty = true
    · simpa [List.filter_cons, hk] using ih
    · simpa [List.filter_cons, hk] using ih

/-- C27, counterexample: for the editor with two rows of key `a` (and a row
without a key), `saveEnvironment` writes two bindings of key `a` for the
environment: the keys of the written list are not distinct. -/
theorem saveEnvironment_writes_duplicate_key :
    saveEnvironmentCalls demoReplies duplicateKeySession
        = [ StoreCall.updateEnvironment (utf16 "env1") (utf16 "Staging"),
            StoreCall.deleteVariables (utf16 "env1"),
            StoreCall.insertVariables
              [ { environment_id := utf16 "env1", key := utf16 "a", value := utf16 "1",
                  enabled := true },
                { environment_id := utf16 "env1", key := utf16 "a", value := utf16 "2",
                  enabled := true } ],
            StoreCall.selectEnvironments ]
      ∧ ¬ ([utf16 "a", utf16 "a"] : List JSString).Nodup :=
  ⟨by decide, by decide⟩

/-- C27, amended: for every editor state and every answer of the store, a
list of bindings that `saveEnvironment` writes is not empty, has only
non-empty keys, and its keys are the non-empty keys of the editor rows, in
their order and as often as the editor repeats them. -/
theorem saveEnvironment_written_keys (r : StoreReplies) (st : SessionState)
    (rows : List EnvironmentVariable)
    (h : StoreCall.insertVariables rows ∈ saveEnvironmentCalls r st) :
    rows ≠ [] ∧ (∀ v ∈ rows, v.key ≠ [])
      ∧ rows.map (fun v => v.key)
          = (st.envEditor.variableRows.map (fun v => v.key)).filter (fun k => !k.isEmpty) := by
  obtain ⟨hne, envId, rfl⟩ := mem_saveEnvironmentCalls h
  refine ⟨hne, ?_, savedVariables_keys envId _⟩
  intro v hv
  have hk : v.key ∈ (savedVariables envId st.envEditor.variableRows).map (fun v => v.key) :=
    List.mem_map_of_mem _ hv
  rw [savedVariables_keys] at hk
  have := (List.mem_filter.mp hk).2
  intro e
  rw [e] at this
  exact absurd this (by decide)

theorem saveEnvironment_written_keys_witness :
    ([ { environment_id := utf16 "env1", key := utf16 "a", value := utf16 "1",
          enabled := true },
        { environment_id := utf16 "env1", key := utf16 "a", value := utf16 "2",
          enabled := true } ] : List EnvironmentVariable) ≠ []
      ∧ (∀ v ∈ ([ { environment_id := utf16 "env1", key := utf16 "a", value := utf16 "1",
                    enabled := true },
                  { environment_id := utf16 "env1", key := utf16 "a", value := utf16 "2",
                    enabled := true } ] : List EnvironmentVariable), v.key ≠ [])
      ∧ ([ { environment_id := utf16 "env1", key := utf16 "a", value := utf16 "1",
              enabled := true },
            { environment_id := utf16 "env1", key := utf16 "a", value := utf16 "2",
              enabled := true } ] : List EnvironmentVariable).map (fun v => v.key)
          = (duplicateKeySession.envEditor.variableRows.map (fun v => v.key)).filter
              (fun k => !k.isEmpty) :=
  saveEnvironment_written_keys demoReplies duplicateKeySession _ (by decide)

/-- The selection of an option of the environment select keeps the
invariant: the options are the empty value, the ids of the loaded
environments, and `manage`. -/
theorem selectEnvironment_keeps_invariant (value : JSString) (st : SessionState)
    (hinv : activeEnvironmentLoaded st = true)
    (hopt : value = [] ∨ value = utf16 "manage" ∨ ∃ e ∈ st.environments, value = e.id) :
    activeEnvironmentLoaded (selectEnvironment value st) = true := by
  unfold selectEnvironment
  split
  · exact hinv
  · rename_i hm
    rcases hopt with rfl | h | ⟨e, he, rfl⟩
    · rfl
    · exact absurd h hm
    · unfold activeEnvironmentLoaded
      simp only [Bool.or_eq_true, List.any_eq_true]
      exact Or.inr ⟨e, he, by simp⟩

/-- The sibling path: when the active environment is the one deleted,
`deleteEnvironment` resets `activeEnvId` to the empty value. -/
theorem deleteEnvironment_resets_active (r : StoreReplies) (st : SessionState)
    (hid : envIdTruthy st.envEditor.id = true) (hactive : st.activeEnvId = st.envEditor.id) :
    (deleteEnvironment true r st).1.activeEnvId = some []
      ∧ activeEnvironmentLoaded (deleteEnvironment true r st).1 = true := by
  have hstate : (deleteEnvironment true r st).1.activeEnvId = some [] := by
    unfold deleteEnvironment
    simp only [hid, hactive, Bool.not_true, Bool.or_self, Bool.false_eq_true, if_false, if_true]
  refine ⟨hstate, ?_⟩
  unfold activeEnvironmentLoaded
  rw [hstate]
  rfl

/-- C29: the claim fails at the auth event `SIGNED_OUT`. In the example
session one environment is loaded and active, so the invariant holds; the
handler of `SIGNED_OUT` empties the list `environments` and leaves
`activeEnvId` as it was, so afterwards `activeEnvId` is the id `env1`, which
is neither empty nor the id of a loaded environment. -/
theorem authStateChange_signed_out_keeps_active :
    activeEnvironmentLoaded demoSession = true
      ∧ (authStateChange AuthEvent.SIGNED_OUT none demoSession).environments = []
      ∧ (authStateChange AuthEvent.SIGNED_OUT none demoSession).activeEnvId
          = some (utf16 "env1")
      ∧ activeEnvironmentLoaded (authStateChange AuthEvent.SIGNED_OUT none demoSession)
          = false :=
  ⟨by decide, rfl, rfl, by decide⟩

/-! ## Claim on the password update of `Auth.jsx` -/

/-- C30: when `password` and `confirmPassword` differ, `handleUpdatePassword`
only calls `preventDefault` and sets the error `Passwords do not match`: the
state is otherwise unchanged (so `view`, `password`, `confirmPassword` and
`loading` are as before), and no call of `updateUser`, of `signOut` or of
`setLoading` is made. And whenever a call of `updateUser` is made, the two
values are equal and the call carries that password. -/
theorem handleUpdatePassword_mismatch_guard (w : AuthWorld) (st : AuthState) :
    (st.password ≠ st.confirmPassword →
        (handleUpdatePassword w st).1
            = { st with error := some (utf16 "Passwords do not match") }
          ∧ (handleUpdatePassword w st).2
              = [AuthCall.preventDefault,
                  AuthCall.setError (some (utf16 "Passwords do not match"))]
          ∧ AuthCall.signOut ∉ (handleUpdatePassword w st).2
          ∧ AuthCall.setLoading true ∉ (handleUpdatePassword w st).2
          ∧ ∀ p, AuthCall.updateUser p ∉ (handleUpdatePassword w st).2)
      ∧ (∀ p, AuthCall.updateUser p ∈ (handleUpdatePassword w st).2 →
          st.password = st.confirmPassword ∧ p = st.password) := by
  by_cases h : st.password = st.confirmPassword
  · refine ⟨fun hne => absurd h hne, fun p hp => ⟨h, ?_⟩⟩
    unfold handleUpdatePassword at hp
    rw [if_neg (fun hne => hne h)] at hp
    cases hu : w.updateUser st.password with
    | some msg => simpa [hu] using hp
    | none =>
      cases hs : w.signOut with
      | some msg => simpa [hu, hs] using hp
      | none =>
        cases ho : w.onLogin <;> simpa [hu, hs, ho] using hp
  · have hstate : handleUpdatePassword w st
        = ({ st with error := some (utf16 "Passwords do not match") },
            [AuthCall.preventDefault,
              AuthCall.setError (some (utf16 "Passwords do not match"))]) := by
      unfold handleUpdatePassword
      rw [if_pos h]
    refine ⟨fun _ => ?_, fun p hp => ?_⟩
    · rw [hstate]
      exact ⟨rfl, rfl, by simp, by simp, fun p => by simp⟩
    · rw [hstate] at hp
      simp at hp

theorem handleUpdatePassword_mismatch_guard_witness :
    (handleUpdatePassword demoAuthWorld (updateForm (utf16 "secret1") (utf16 "secret2"))).1
        = { updateForm (utf16 "secret1") (utf16 "secret2") with
              error := some (utf16 "Passwords do not match") }
      ∧ (handleUpdatePassword demoAuthWorld
            (updateForm (utf16 "secret1") (utf16 "secret2"))).2
          = [AuthCall.preventDefault,
              AuthCall.setError (some (utf16 "Passwords do not match"))]
      ∧ AuthCall.signOut ∉ (handleUpdatePassword demoAuthWorld
            (updateForm (utf16 "secret1") (utf16 "secret2"))).2
      ∧ AuthCall.setLoading true ∉ (handleUpdatePassword demoAuthWorld
            (updateForm (utf16 "secret1") (utf16 "secret2"))).2
      ∧ ∀ p, AuthCall.updateUser p ∉ (handleUpdatePassword demoAuthWorld
            (updateForm (utf16 "secret1") (utf16 "secret2"))).2 :=
  (handleUpdatePassword_mismatch_guard demoAuthWorld
    (updateForm (utf16 "secret1") (utf16 "secret2"))).1 (by decide)

end ApiTester
